import Mathlib

/-!
Verification development for the signalgen real-time market-signal pipeline.

Shallow embedding of the core components (rule engine, candle builder,
indicator engine, cooldown gate, reconnection loop) from `src/app`, with
theorems settling the frozen claims about them.

Modelling conventions:
* Python floats are modelled as `ℚ`; timestamps as `ℚ`, `int(ts)` as
  truncation toward zero (`Int.tdiv`), `//` on integers as `Int.fdiv`.
* A Python `dict` keyed by strings is modelled as an insertion-ordered
  association list `List (String × α)` with first-match lookup; a Python
  `set` of ints as a `Finset ℤ`.
* Functions that raise are modelled in `Except String`; a raise leaves the
  caller state unchanged, which the state-passing definitions mirror by
  returning no state on the error path.
-/

namespace SignalGen

/-- First-match lookup in an association list (Python `dict[key]` /
`dict.get(key)`; insertion order, unique keys in any list built by
`dict_insert`). -/
def lookupKey {α : Type} : List (String × α) → String → Option α
  | [], _ => none
  | (k, v) :: rest, key => if k = key then some v else lookupKey rest key

/-- Python dict assignment `d[key] = value`: overwrite in place when the key
exists (keeping its position), otherwise append at the end. -/
def dict_insert {α : Type} : List (String × α) → String → α → List (String × α)
  | [], k, v => [(k, v)]
  | (k0, v0) :: rest, k, v =>
    if k0 = k then (k, v) :: rest else (k0, v0) :: dict_insert rest k v

theorem lookupKey_dict_insert_self {α : Type} (m : List (String × α)) (k : String) (v : α) :
    lookupKey (dict_insert m k v) k = some v := by
  induction m with
  | nil => simp [dict_insert, lookupKey]
  | cons p rest ih =>
    obtain ⟨k0, v0⟩ := p
    by_cases h : k0 = k
    · simp [dict_insert, h, lookupKey]
    · simp [dict_insert, h, lookupKey, ih]

theorem lookupKey_dict_insert_ne {α : Type} (m : List (String × α)) (k k2 : String) (v : α)
    (h : k ≠ k2) : lookupKey (dict_insert m k v) k2 = lookupKey m k2 := by
  induction m with
  | nil => simp [dict_insert, lookupKey, h]
  | cons p rest ih =>
    obtain ⟨k0, v0⟩ := p
    by_cases h0 : k0 = k
    · subst h0
      simp [dict_insert, lookupKey, h]
    · simp [dict_insert, h0, lookupKey, ih]

theorem lookupKey_append {α : Type} (a b : List (String × α)) (k : String) :
    lookupKey (a ++ b) k =
      match lookupKey a k with
      | some v => some v
      | none => lookupKey b k := by
  induction a with
  | nil => simp [lookupKey]
  | cons p rest ih =>
    obtain ⟨k0, v0⟩ := p
    by_cases h : k0 = k
    · simp [lookupKey, h]
    · simp [lookupKey, h, ih]

theorem exc_bind_ok {ε α β : Type} (a : α) (f : α → Except ε β) :
    (do let x ← Except.ok a; f x : Except ε β) = f a := rfl

theorem exc_bind_error {ε α β : Type} (e : ε) (f : α → Except ε β) :
    (do let x ← Except.error e; f x : Except ε β) = Except.error e := rfl

theorem exists_error_of_not_isOk {ε α : Type} (x : Except ε α) (h : x.isOk = false) :
    ∃ e, x = .error e := by
  cases x with
  | ok a => simp [Except.isOk, Except.toBool] at h
  | error e => exact ⟨e, rfl⟩

namespace RuleEngine

/-! Embedding of `src/app/core/rule_engine.py` (class `RuleEngine`).

An operand in a condition is, per the source, either a numeric literal
(`int`/`float`, or a numeric string which `_get_operand_value` parses with
`float(...)` at lines 329-333) or an indicator-name string.  We model the
post-parse domain: `Operand.num q` covers numeric literals and numeric
strings, `Operand.name s` covers non-numeric strings. -/

/-- Supported operands (`RuleEngine.SUPPORTED_OPERANDS`, rule_engine.py:51-95). -/
def SUPPORTED_OPERANDS : List String :=
  ["PRICE", "PREV_CLOSE", "PREV_OPEN",
   "MA20", "MA50", "MA100", "MA200",
   "MA20_PREV", "MA50_PREV", "MA100_PREV", "MA200_PREV",
   "EMA6", "EMA9", "EMA10", "EMA13", "EMA20", "EMA21", "EMA34", "EMA50",
   "EMA6_PREV", "EMA9_PREV", "EMA10_PREV", "EMA13_PREV", "EMA20_PREV",
   "EMA21_PREV", "EMA34_PREV", "EMA50_PREV",
   "MACD", "MACD_SIGNAL", "MACD_HIST", "MACD_HIST_PREV", "MACD_PREV",
   "MACD_SIGNAL_PREV",
   "BB_UPPER", "BB_MIDDLE", "BB_LOWER", "BB_WIDTH",
   "BB_UPPER_PREV", "BB_MIDDLE_PREV", "BB_LOWER_PREV",
   "ADX5", "ADX5_PREV",
   "RSI14", "RSI14_PREV",
   "VOLUME", "SMA_VOLUME_20", "REL_VOLUME_20",
   "PRICE_EMA20_DIFF_PCT"]

/-- Supported operators (`RuleEngine.SUPPORTED_OPERATORS`, rule_engine.py:98-102). -/
def SUPPORTED_OPERATORS : List String :=
  [">", "<", ">=", "<=", "CROSS_UP", "CROSS_DOWN"]

/-- Supported logic operators (`RuleEngine.SUPPORTED_LOGIC`, rule_engine.py:105). -/
def SUPPORTED_LOGIC : List String := ["AND"]

/-- A condition operand: numeric literal (also covering numeric strings,
which the source parses into numbers) or an indicator-name string. -/
inductive Operand where
  | num (q : ℚ)
  | name (s : String)
deriving DecidableEq

/-- Python truthiness of an operand value: `0`/`0.0` and the empty string are
falsy, everything else truthy. -/
def Operand.py_truthy : Operand → Bool
  | .num q => decide (q ≠ 0)
  | .name s => decide (s ≠ "")

/-- `RuleEngine._get_operand_value` (rule_engine.py:310-344): a numeric
literal (or numeric string) is returned directly; otherwise the operand is
looked up in the indicator map and a missing key is an evaluation error.
The map is typed `Dict[str, float]`, so its values are numeric and the
non-numeric-value branch of the source is unreachable in this model. -/
def get_operand_value (operand : Operand) (indicator_values : List (String × ℚ)) :
    Except String ℚ :=
  match operand with
  | .num q => .ok q
  | .name s =>
    match lookupKey indicator_values s with
    | some v => .ok v
    | none => .error ("Missing indicator value for operand: " ++ s)

/-- Decimal-style rendering of a numeric literal, used only to mirror the
f-string `f"{operand}_PREV"` of rule_engine.py:396/438 when the operand is a
number; the exact rendering is immaterial to every theorem below (all
crossover theorems take name operands). -/
def numeral_repr (q : ℚ) : String :=
  toString q.num ++ (if q.den = 1 then "" else "/" ++ toString q.den)

/-- The `_PREV`-suffixed key built from an operand (rule_engine.py:396-397). -/
def Operand.prev_key : Operand → String
  | .name s => s ++ "_PREV"
  | .num q => numeral_repr q ++ "_PREV"

/-- `RuleEngine._evaluate_cross_up` (rule_engine.py:371-411). -/
def evaluate_cross_up (left_operand right_operand : Operand)
    (indicator_values : List (String × ℚ)) : Except String Bool := do
  let current_left ← get_operand_value left_operand indicator_values
  let current_right ← get_operand_value right_operand indicator_values
  match lookupKey indicator_values left_operand.prev_key,
        lookupKey indicator_values right_operand.prev_key with
  | some prev_left, some prev_right =>
    .ok (decide (prev_left ≤ prev_right) && decide (current_left > current_right))
  | _, _ =>
    .error ("CROSS_UP requires previous values: " ++ left_operand.prev_key
      ++ " and " ++ right_operand.prev_key ++ " not found")

/-- `RuleEngine._evaluate_cross_down` (rule_engine.py:413-453). -/
def evaluate_cross_down (left_operand right_operand : Operand)
    (indicator_values : List (String × ℚ)) : Except String Bool := do
  let current_left ← get_operand_value left_operand indicator_values
  let current_right ← get_operand_value right_operand indicator_values
  match lookupKey indicator_values left_operand.prev_key,
        lookupKey indicator_values right_operand.prev_key with
  | some prev_left, some prev_right =>
    .ok (decide (prev_left ≥ prev_right) && decide (current_left < current_right))
  | _, _ =>
    .error ("CROSS_DOWN requires previous values: " ++ left_operand.prev_key
      ++ " and " ++ right_operand.prev_key ++ " not found")

/-- The comparison-operator table built in `RuleEngine.__init__`
(rule_engine.py:109-114). -/
def apply_comparison (op : String) (a b : ℚ) : Bool :=
  if op = ">" then decide (a > b)
  else if op = "<" then decide (a < b)
  else if op = ">=" then decide (a ≥ b)
  else decide (a ≤ b)

/-- A single condition; `none` fields model keys absent from the condition
dict (`condition.get(...)` returning `None`). -/
structure Condition where
  left : Option Operand
  op : Option String
  right : Option Operand

/-- Body of `RuleEngine.evaluate_condition` before the exception wrapper
(rule_engine.py:177-209): the falsy-field check
`not all([left_operand, operator, right_operand is not None])`, the operator
membership check, the crossover dispatch, and the comparison path. -/
def evaluate_condition_body (condition : Condition)
    (indicator_values : List (String × ℚ)) : Except String Bool :=
  match condition.left, condition.op, condition.right with
  | some left_operand, some operator, some right_operand =>
    if ¬(left_operand.py_truthy = true ∧ operator ≠ "") then
      .error ("Condition must have left, op and right fields")
    else if operator ∉ SUPPORTED_OPERATORS then
      .error ("Unsupported operator: " ++ operator)
    else if operator = "CROSS_UP" then
      evaluate_cross_up left_operand right_operand indicator_values
    else if operator = "CROSS_DOWN" then
      evaluate_cross_down left_operand right_operand indicator_values
    else do
      let left_value ← get_operand_value left_operand indicator_values
      let right_value ← get_operand_value right_operand indicator_values
      .ok (apply_comparison operator left_value right_value)
  | _, _, _ => .error ("Condition must have left, op and right fields")

/-- `RuleEngine.evaluate_condition` (rule_engine.py:163-212): the body with
its `except` clause re-wrapping every failure message. -/
def evaluate_condition (condition : Condition)
    (indicator_values : List (String × ℚ)) : Except String Bool :=
  match evaluate_condition_body condition indicator_values with
  | .ok b => .ok b
  | .error e => .error ("Failed to evaluate condition: " ++ e)

/-- Whether an operand is valid (`RuleEngine._is_valid_operand`,
rule_engine.py:346-369): numeric literals and numeric strings are valid,
name strings must be supported operands. -/
def is_valid_operand : Operand → Bool
  | .num _ => true
  | .name s => decide (s ∈ SUPPORTED_OPERANDS)

/-- A rule; the three `has_` flags model presence of the `id`, `name` and
`type` keys (whose values the engine never reads), `none` models an absent
key for the remaining fields. -/
structure Rule where
  has_id : Bool
  has_name : Bool
  has_type : Bool
  logic : Option String
  conditions : Option (List Condition)
  cooldown_sec : Option ℤ

/-- Per-condition validation loop of `RuleEngine.validate_rule`
(rule_engine.py:247-269). -/
def validate_conditions : List Condition → Except String Unit
  | [] => .ok ()
  | c :: rest =>
    if c.left.isNone then .error ("Condition missing required field: left")
    else if c.op.isNone then .error ("Condition missing required field: op")
    else if c.right.isNone then .error ("Condition missing required field: right")
    else if ¬((c.left.getD (.num 0) |> is_valid_operand) = true) then
      .error ("Unsupported operand")
    else if ¬((c.right.getD (.num 0) |> is_valid_operand) = true) then
      .error ("Unsupported operand")
    else if (c.op.getD "") ∉ SUPPORTED_OPERATORS then
      .error ("Unsupported operator: " ++ c.op.getD "")
    else validate_conditions rest

/-- `RuleEngine.validate_rule` (rule_engine.py:214-275). -/
def validate_rule (rule : Rule) : Except String Unit :=
  if ¬rule.has_id then .error ("Missing required field: id")
  else if ¬rule.has_name then .error ("Missing required field: name")
  else if ¬rule.has_type then .error ("Missing required field: type")
  else if rule.logic.isNone then .error ("Missing required field: logic")
  else if rule.conditions.isNone then .error ("Missing required field: conditions")
  else if (rule.logic.getD "") ∉ SUPPORTED_LOGIC then
    .error ("Unsupported logic operator: " ++ rule.logic.getD "")
  else if (rule.conditions.getD []).isEmpty then
    .error ("At least one condition is required")
  else
    match validate_conditions (rule.conditions.getD []) with
    | .error e => .error e
    | .ok _ =>
      match rule.cooldown_sec with
      | some c => if c < 0 then .error ("cooldown_sec must be a non-negative integer") else .ok ()
      | none => .ok ()

/-- The evaluation path of `RuleEngine.evaluate` after `validate_rule`
(rule_engine.py:135-154), reachable on its own only when validation is
bypassed, as the test suite does by mocking `validate_rule`. -/
def evaluate_skipping_validation (rule : Rule)
    (indicator_values : List (String × ℚ)) : Except String Bool :=
  let conditions := rule.conditions.getD []
  let logic := rule.logic.getD "AND"
  if conditions.isEmpty then .ok false
  else do
    let condition_results ← conditions.mapM (fun c => evaluate_condition c indicator_values)
    if logic = "AND" then .ok (condition_results.all id)
    else .error ("Unsupported logic operator: " ++ logic)

/-- `RuleEngine.evaluate` (rule_engine.py:117-161): validate, then evaluate. -/
def evaluate (rule : Rule) (indicator_values : List (String × ℚ)) :
    Except String Bool :=
  match validate_rule rule with
  | .error e => .error e
  | .ok _ => evaluate_skipping_validation rule indicator_values

/-- Claim C1: for a condition with operator CROSS_UP and name operands
`l`, `r` whose current values resolve, evaluation returns true iff
`prev_l ≤ prev_r` and `cur_l > cur_r`, with the previous values read from the
`l_PREV` / `r_PREV` entries of the indicator map; CROSS_DOWN is the mirror
(`prev_l ≥ prev_r` and `cur_l < cur_r`); and when either `_PREV` entry is
absent, evaluation fails with an error instead of returning a boolean. -/
theorem cross_up_down_semantics (l r : String) (m : List (String × ℚ))
    (hl : l ≠ "") (cl cr : ℚ)
    (hcl : lookupKey m l = some cl) (hcr : lookupKey m r = some cr) :
    (∀ pl pr, lookupKey m (l ++ "_PREV") = some pl →
      lookupKey m (r ++ "_PREV") = some pr →
      evaluate_condition ⟨some (.name l), some "CROSS_UP", some (.name r)⟩ m
          = .ok (decide (pl ≤ pr) && decide (cl > cr))
        ∧ evaluate_condition ⟨some (.name l), some "CROSS_DOWN", some (.name r)⟩ m
          = .ok (decide (pl ≥ pr) && decide (cl < cr)))
    ∧ (lookupKey m (l ++ "_PREV") = none ∨ lookupKey m (r ++ "_PREV") = none →
      (∃ e, evaluate_condition ⟨some (.name l), some "CROSS_UP", some (.name r)⟩ m
          = .error e)
        ∧ ∃ e, evaluate_condition ⟨some (.name l), some "CROSS_DOWN", some (.name r)⟩ m
          = .error e) := by
  constructor
  · intro pl pr hpl hpr
    constructor
    · simp [evaluate_condition, evaluate_condition_body, Operand.py_truthy, hl,
        SUPPORTED_OPERATORS, evaluate_cross_up, get_operand_value, hcl, hcr,
        Operand.prev_key, hpl, hpr, exc_bind_ok]
    · simp [evaluate_condition, evaluate_condition_body, Operand.py_truthy, hl,
        SUPPORTED_OPERATORS, evaluate_cross_down, get_operand_value, hcl, hcr,
        Operand.prev_key, hpl, hpr, exc_bind_ok]
  · intro hmiss
    have key : ∀ o : String, o = "CROSS_UP" ∨ o = "CROSS_DOWN" →
        (evaluate_condition ⟨some (.name l), some o, some (.name r)⟩ m).isOk = false := by
      intro o ho
      rcases hmiss with h | h <;> rcases ho with ho | ho <;> subst ho <;>
        simp [evaluate_condition, evaluate_condition_body, Operand.py_truthy, hl,
          SUPPORTED_OPERATORS, evaluate_cross_up, evaluate_cross_down,
          get_operand_value, hcl, hcr, Operand.prev_key, h, exc_bind_ok,
          Except.isOk, Except.toBool]
    constructor
    · exact exists_error_of_not_isOk _ (key "CROSS_UP" (Or.inl rfl))
    · exact exists_error_of_not_isOk _ (key "CROSS_DOWN" (Or.inr rfl))

/-- Witness for C1 at a concrete indicator map: EMA6 was at its previous
value 1 ≤ EMA10 previous value 1 and is now 2 > 1, so CROSS_UP fires. -/
theorem cross_up_down_semantics_witness :
    evaluate_condition
      ⟨some (.name "EMA6"), some "CROSS_UP", some (.name "EMA10")⟩
      [("EMA6", 2), ("EMA10", 1), ("EMA6_PREV", 1), ("EMA10_PREV", 1)]
      = .ok true := by
  have h := cross_up_down_semantics "EMA6" "EMA10"
    [("EMA6", 2), ("EMA10", 1), ("EMA6_PREV", 1), ("EMA10_PREV", 1)]
    (by decide) 2 1 (by simp [lookupKey]) (by simp [lookupKey])
  have h2 := (h.1 1 1 (by simp [lookupKey]) (by simp [lookupKey])).1
  simpa using h2

/-- Counterexample to claim C3 as stated: for a rule whose condition list is
empty, `evaluate` does not return `False`; it raises
`RuleValidationError: At least one condition is required`, because
rule_engine.py:133 validates before the empty-conditions check at line 140
and validation rejects an empty list at lines 243-244. -/
theorem evaluate_empty_conditions_counterexample :
    evaluate
      { has_id := true, has_name := true, has_type := true,
        logic := some "AND", conditions := some [], cooldown_sec := none }
      []
      = .error ("At least one condition is required") := by
  rfl

/-- Amended claim C3: for every rule whose condition list is empty and every
indicator map, `evaluate` raises a validation error (so it never returns
true); the `empty conditions return False` branch of rule_engine.py:140-141
is reachable only when validation is bypassed, and that unvalidated path
indeed returns false, never true. -/
theorem evaluate_empty_conditions_amended (rule : Rule)
    (m : List (String × ℚ)) (h : rule.conditions = some []) :
    (∃ e, evaluate rule m = .error e)
      ∧ (∀ b, evaluate rule m ≠ .ok b)
      ∧ evaluate_skipping_validation rule m = .ok false := by
  have hval : ∃ e, validate_rule rule = .error e := by
    apply exists_error_of_not_isOk
    simp only [validate_rule, h]
    split_ifs <;> simp_all [Except.isOk, Except.toBool]
  obtain ⟨e, he⟩ := hval
  refine ⟨⟨e, by simp [evaluate, he]⟩, ?_, ?_⟩
  · intro b
    simp [evaluate, he]
  · simp [evaluate_skipping_validation, h]

/-- Witness for the amended C3 at a concrete rule and map. -/
theorem evaluate_empty_conditions_amended_witness :
    (∃ e, evaluate
      { has_id := true, has_name := true, has_type := true,
        logic := some "AND", conditions := some [], cooldown_sec := none }
      [("PRICE", 100)] = .error e)
      ∧ evaluate_skipping_validation
        { has_id := true, has_name := true, has_type := true,
          logic := some "AND", conditions := some [], cooldown_sec := none }
        [("PRICE", 100)] = .ok false := by
  have h := evaluate_empty_conditions_amended
    { has_id := true, has_name := true, has_type := true,
      logic := some "AND", conditions := some [], cooldown_sec := none }
    [("PRICE", 100)] rfl
  exact ⟨h.1, h.2.2⟩

/-- Counterexample to claim C4 as stated: the rule with the single condition
`0 > -1` passes validation (both operands are numeric literals), and under
the claim the literal `0` would be passed through as its own value, making
the condition true; but `evaluate` raises, because the falsy-field check
`not all([left_operand, operator, right_operand is not None])` at
rule_engine.py:184 treats the left literal `0` as a missing field. -/
theorem literal_zero_operand_counterexample :
    validate_rule
      { has_id := true, has_name := true, has_type := true,
        logic := some "AND",
        conditions := some [⟨some (.num 0), some ">", some (.num (-1))⟩],
        cooldown_sec := none } = .ok ()
    ∧ evaluate
      { has_id := true, has_name := true, has_type := true,
        logic := some "AND",
        conditions := some [⟨some (.num 0), some ">", some (.num (-1))⟩],
        cooldown_sec := none }
      []
      = .error ("Failed to evaluate condition: Condition must have left, op and right fields")
    ∧ get_operand_value (.num 0) [] = .ok 0
    ∧ apply_comparison ">" 0 (-1) = true := by
  refine ⟨rfl, ?_, rfl, by decide⟩
  rfl

/-- Amended claim C4: when `evaluate` resolves a condition with a comparison
operator, a nonzero numeric-literal left operand and any numeric-literal or
present right operand are passed through as their own values; a left operand
equal to the literal `0` is instead rejected by the falsy-field check with an
evaluation error; a non-literal operand is looked up in the indicator map,
and a missing key is an evaluation error, never a silent false. -/
theorem operand_resolution_amended (q : ℚ) (rop : Operand) (op : String)
    (m : List (String × ℚ)) (hop : op ∈ ([">", "<", ">=", "<="] : List String)) :
    (∃ e, evaluate_condition ⟨some (.num 0), some op, some rop⟩ m = .error e)
    ∧ (q ≠ 0 → evaluate_condition ⟨some (.num q), some op, some rop⟩ m
        = match get_operand_value rop m with
          | .ok rv => .ok (apply_comparison op q rv)
          | .error e => .error ("Failed to evaluate condition: " ++ e))
    ∧ (∀ s v, lookupKey m s = some v → get_operand_value (.name s) m = .ok v)
    ∧ (∀ s, lookupKey m s = none → ∃ e, get_operand_value (.name s) m = .error e) := by
  have hops : op ∈ SUPPORTED_OPERATORS := by
    fin_cases hop <;> simp [SUPPORTED_OPERATORS]
  have hnc : op ≠ "CROSS_UP" ∧ op ≠ "CROSS_DOWN" := by
    fin_cases hop <;> simp
  have hne : op ≠ "" := by
    fin_cases hop <;> simp
  refine ⟨?_, ?_, ?_, ?_⟩
  · apply exists_error_of_not_isOk
    simp [evaluate_condition, evaluate_condition_body, Operand.py_truthy,
      Except.isOk, Except.toBool]
  · intro hq
    have step : evaluate_condition_body ⟨some (.num q), some op, some rop⟩ m
        = (do
            let left_value ← get_operand_value (.num q) m
            let right_value ← get_operand_value rop m
            Except.ok (apply_comparison op left_value right_value)) := by
      simp [evaluate_condition_body, Operand.py_truthy, hq, hops, hnc.1, hnc.2, hne]
    have hnum : get_operand_value (.num q) m = .ok q := rfl
    cases hrv : get_operand_value rop m with
    | ok rv =>
      simp [evaluate_condition, step, hnum, hrv, exc_bind_ok]
    | error e =>
      simp [evaluate_condition, step, hnum, hrv, exc_bind_ok, exc_bind_error]
  · intro s v hv
    simp [get_operand_value, hv]
  · intro s hs
    apply exists_error_of_not_isOk
    simp [get_operand_value, hs, Except.isOk, Except.toBool]

/-- Witness for the amended C4 at a concrete condition `5 > MA20` with
`MA20 = 3` in the map: the literal passes through and the lookup succeeds. -/
theorem operand_resolution_amended_witness :
    evaluate_condition ⟨some (.num 5), some ">", some (.name "MA20")⟩
      [("MA20", 3)] = .ok true := by
  have h := (operand_resolution_amended 5 (.name "MA20") ">"
    [("MA20", 3)] (by simp)).2.1 (by norm_num)
  rw [h]
  rfl

end RuleEngine

namespace CandleBuilder

/-! Embedding of `src/app/core/candle_builder.py` (class `CandleBuilder`).

All of the builder state is held in per-symbol maps and `add_bar` touches
only the entries of the one symbol it is given, so we model the state of a
single symbol; `timeframe_seconds` (the instance attribute set from the
`TIMEFRAMES` table) is passed explicitly. -/

/-- Timeframe table (`CandleBuilder.TIMEFRAMES`, candle_builder.py:42-49). -/
def TIMEFRAMES : List (String × ℤ) :=
  [("1m", 60), ("5m", 300), ("15m", 900), ("1h", 3600), ("4h", 14400), ("1d", 86400)]

/-- Python `int(x)` on a float: truncation toward zero. -/
def pyInt (q : ℚ) : ℤ := q.num.tdiv q.den

/-- A raw bar as passed to `add_bar` (candle_builder.py:171-172); `volume`
defaults to 0 in the source and is typed `int`. -/
structure Bar where
  open_price : ℚ
  high : ℚ
  low : ℚ
  close : ℚ
  timestamp : ℚ
  volume : ℤ

/-- The currently building candle dict (candle_builder.py:254-262). -/
structure BuildingCandle where
  open_price : ℚ
  high : ℚ
  low : ℚ
  close : ℚ
  volume : ℤ
  start_time : ℤ
  close_time : ℤ
deriving DecidableEq

/-- A finalized candle dict (candle_builder.py:229-238): the building
candle's fields plus `timestamp = close_time`. -/
structure CompletedCandle where
  open_price : ℚ
  high : ℚ
  low : ℚ
  close : ℚ
  volume : ℤ
  timestamp : ℤ
  start_time : ℤ
  close_time : ℤ
deriving DecidableEq

/-- The per-symbol portion of the builder state (candle_builder.py:69-79,
initialized in `initialize_symbol`, lines 109-122): the deque of completed
candles, the building candle, the set of processed integer timestamps, and
the last candle close time. -/
structure SymbolState where
  completed_candles : List CompletedCandle
  current_candle : Option BuildingCandle
  processed_timestamps : Finset ℤ
  last_candle_time : ℤ
deriving DecidableEq

/-- State created by `initialize_symbol` (candle_builder.py:116-121). -/
def initial_symbol_state : SymbolState :=
  { completed_candles := [], current_candle := none,
    processed_timestamps := ∅, last_candle_time := 0 }

/-- Append on a `deque(maxlen=n)`: when full, the oldest entry is dropped
(candle_builder.py:118 creates the deque with `maxlen=self.max_candles`). -/
def deque_append {α : Type} (l : List α) (c : α) (maxlen : ℕ) : List α :=
  let l2 := l ++ [c]
  l2.drop (l2.length - maxlen)

/-- Default `max_candles` (candle_builder.py:51). -/
def MAX_CANDLES : ℕ := 500

/-- `CandleBuilder._get_candle_start_time` (candle_builder.py:143-155):
`(int(timestamp) // timeframe_seconds) * timeframe_seconds`, with Python
floor division. -/
def get_candle_start_time (tf_seconds : ℤ) (timestamp : ℚ) : ℤ :=
  ((pyInt timestamp).fdiv tf_seconds) * tf_seconds

/-- `CandleBuilder._should_finalize_candle` (candle_builder.py:157-169). -/
def should_finalize_candle (tf_seconds : ℤ) (current_candle_start : ℤ)
    (new_timestamp : ℚ) : Bool :=
  decide (get_candle_start_time tf_seconds new_timestamp > current_candle_start)

/-- The seen-set cap (candle_builder.py:210-215): when more than 10000
timestamps are recorded, the oldest 2000 (the first 2000 of the sorted set)
are removed. -/
def evict_old_timestamps (s : Finset ℤ) : Finset ℤ :=
  if s.card > 10000 then s \ ((s.sort (· ≤ ·)).take 2000).toFinset else s

/-- `CandleBuilder.add_bar` (candle_builder.py:171-283) for one symbol:
price validation, duplicate-timestamp check, seen-set insert and eviction,
then finalize / update / create on the building candle.  A raise (invalid
prices) is the error case and mutates nothing. -/
def add_bar (tf_seconds : ℤ) (state : SymbolState) (bar : Bar) :
    Except String ((Bool × Option CompletedCandle) × SymbolState) :=
  if ¬(bar.open_price > 0 ∧ bar.high > 0 ∧ bar.low > 0 ∧ bar.close > 0) then
    .error ("Invalid price values")
  else
    let timestamp_key := pyInt bar.timestamp
    if timestamp_key ∈ state.processed_timestamps then
      .ok ((false, none), state)
    else
      let processed := evict_old_timestamps (insert timestamp_key state.processed_timestamps)
      let candle_start := get_candle_start_time tf_seconds bar.timestamp
      match state.current_candle with
      | some current =>
        if should_finalize_candle tf_seconds current.start_time bar.timestamp then
          let completed : CompletedCandle :=
            { open_price := current.open_price, high := current.high,
              low := current.low, close := current.close, volume := current.volume,
              timestamp := current.close_time, start_time := current.start_time,
              close_time := current.close_time }
          let fresh : BuildingCandle :=
            { open_price := bar.open_price, high := bar.high, low := bar.low,
              close := bar.close, volume := bar.volume,
              start_time := candle_start, close_time := candle_start + tf_seconds }
          .ok ((true, some completed),
            { completed_candles := deque_append state.completed_candles completed MAX_CANDLES,
              current_candle := some fresh,
              processed_timestamps := processed,
              last_candle_time := current.close_time })
        else
          let updated : BuildingCandle :=
            { open_price := current.open_price,
              high := max current.high bar.high,
              low := min current.low bar.low,
              close := bar.close,
              volume := current.volume + bar.volume,
              start_time := current.start_time, close_time := current.close_time }
          .ok ((false, none),
            { state with current_candle := some updated,
                         processed_timestamps := processed })
      | none =>
        let fresh : BuildingCandle :=
          { open_price := bar.open_price, high := bar.high, low := bar.low,
            close := bar.close, volume := bar.volume,
            start_time := candle_start, close_time := candle_start + tf_seconds }
        .ok ((false, none),
          { state with current_candle := some fresh,
                       processed_timestamps := processed })

/-- One `add_bar` call as seen by a driver that feeds a bar stream: a raise
propagates out of `add_bar` before any mutation, so the state is kept. -/
def add_bar_step (tf_seconds : ℤ) (state : SymbolState) (bar : Bar) : SymbolState :=
  match add_bar tf_seconds state bar with
  | .ok (_, s2) => s2
  | .error _ => state

/-- Feed a list of bars, collecting the completed candles in the order they
are returned by `add_bar`. -/
def run_emitting (tf_seconds : ℤ) : List Bar → SymbolState → SymbolState × List CompletedCandle
  | [], s => (s, [])
  | b :: rest, s =>
    match add_bar tf_seconds s b with
    | .ok ((_, emitted), s2) =>
      let r := run_emitting tf_seconds rest s2
      (r.1, emitted.toList ++ r.2)
    | .error _ => run_emitting tf_seconds rest s

/-- Feed a list of bars, keeping only the final state. -/
def run_bars (tf_seconds : ℤ) (bars : List Bar) (s : SymbolState) : SymbolState :=
  bars.foldl (add_bar_step tf_seconds) s

/-- Invariant tying a symbol state and the candles emitted so far to the
bars consumed so far: emitted start times are strictly increasing, every
start time is produced by `_get_candle_start_time` on some consumed bar
(hence a multiple of the timeframe), and the building candle is strictly
newer than everything emitted. -/
def EmitInv (tf : ℤ) (seen : List Bar) (s : SymbolState)
    (ems : List CompletedCandle) : Prop :=
  List.Chain' (fun a b => a.start_time < b.start_time) ems
  ∧ (∀ c ∈ ems, tf ∣ c.start_time
      ∧ ∃ b ∈ seen, c.start_time = get_candle_start_time tf b.timestamp)
  ∧ (∀ cur, s.current_candle = some cur →
      (∀ c ∈ ems, c.start_time < cur.start_time) ∧ tf ∣ cur.start_time
        ∧ ∃ b ∈ seen, cur.start_time = get_candle_start_time tf b.timestamp)
  ∧ (s.current_candle = none → ems = [])

theorem dvd_get_candle_start_time (tf : ℤ) (ts : ℚ) :
    tf ∣ get_candle_start_time tf ts :=
  dvd_mul_left tf ((pyInt ts).fdiv tf)

theorem emit_inv_append_seen {tf : ℤ} {seen : List Bar} {s : SymbolState}
    {ems : List CompletedCandle} (h : EmitInv tf seen s ems) (extra : List Bar) :
    EmitInv tf (seen ++ extra) s ems := by
  obtain ⟨h1, h2, h3, h4⟩ := h
  refine ⟨h1, ?_, ?_, h4⟩
  · intro c hc
    obtain ⟨hd, b, hb, he⟩ := h2 c hc
    exact ⟨hd, b, List.mem_append_left _ hb, he⟩
  · intro cur hcur
    obtain ⟨ha, hd, b, hb, he⟩ := h3 cur hcur
    exact ⟨ha, hd, b, List.mem_append_left _ hb, he⟩

theorem emit_inv_step {tf : ℤ} {seen : List Bar} {s : SymbolState}
    {ems : List CompletedCandle} (h : EmitInv tf seen s ems) (b : Bar) :
    ∀ {flag : Bool} {emitted : Option CompletedCandle} {s2 : SymbolState},
      add_bar tf s b = .ok ((flag, emitted), s2) →
      EmitInv tf (seen ++ [b]) s2 (ems ++ emitted.toList) := by
  intro flag emitted s2 hab
  obtain ⟨hchain, hems, hcur, hnone⟩ := h
  by_cases hval : b.open_price > 0 ∧ b.high > 0 ∧ b.low > 0 ∧ b.close > 0
  swap
  · simp [add_bar, hval] at hab
  by_cases hdup : pyInt b.timestamp ∈ s.processed_timestamps
  · -- duplicate timestamp: nothing changes
    simp [add_bar, hval, hdup] at hab
    obtain ⟨⟨hflag, hemit⟩, hs2⟩ := hab
    subst hemit
    subst hs2
    simpa using emit_inv_append_seen ⟨hchain, hems, hcur, hnone⟩ [b]
  rcases hc : s.current_candle with _ | cur
  · -- no building candle yet: start one
    simp [add_bar, hval, hdup, hc] at hab
    obtain ⟨⟨hflag, hemit⟩, hs2⟩ := hab
    subst hemit
    have hemsnil : ems = [] := hnone hc
    subst hemsnil
    refine ⟨by simp, by simp, ?_, by simp⟩
    intro cur2 hcur2
    rw [← hs2] at hcur2
    simp only [Option.some.injEq] at hcur2
    refine ⟨by simp, ?_, ?_⟩
    · rw [← hcur2]
      exact dvd_get_candle_start_time tf b.timestamp
    · exact ⟨b, by simp, by rw [← hcur2]⟩
  by_cases hfin : should_finalize_candle tf cur.start_time b.timestamp = true
  · -- finalize the building candle and start a fresh one
    simp [add_bar, hval, hdup, hc, hfin] at hab
    obtain ⟨⟨hflag, hemit⟩, hs2⟩ := hab
    subst hemit
    have hold := hcur cur hc
    have hgt : cur.start_time < get_candle_start_time tf b.timestamp := by
      simpa [should_finalize_candle] using hfin
    constructor
    · rw [List.chain'_append]
      refine ⟨hchain, by simp, ?_⟩
      intro x hx y hy
      simp only [Option.toList_some, List.head?_cons, Option.mem_def,
        Option.some.injEq] at hy
      subst hy
      exact hold.1 x (List.mem_of_mem_getLast? hx)
    refine ⟨?_, ?_, ?_⟩
    · intro c hcm
      rcases List.mem_append.mp hcm with hcm | hcm
      · obtain ⟨hd, b0, hb0, he⟩ := hems c hcm
        exact ⟨hd, b0, List.mem_append_left _ hb0, he⟩
      · simp only [Option.toList_some, List.mem_singleton] at hcm
        subst hcm
        obtain ⟨b0, hb0, he⟩ := hold.2.2
        exact ⟨hold.2.1, b0, List.mem_append_left _ hb0, he⟩
    · intro cur2 hcur2
      rw [← hs2] at hcur2
      simp only [Option.some.injEq] at hcur2
      refine ⟨?_, ?_, ?_⟩
      · intro c hcm
        rw [← hcur2]
        rcases List.mem_append.mp hcm with hcm | hcm
        · exact lt_trans (hold.1 c hcm) hgt
        · simp only [Option.toList_some, List.mem_singleton] at hcm
          subst hcm
          exact hgt
      · rw [← hcur2]
        exact dvd_get_candle_start_time tf b.timestamp
      · exact ⟨b, by simp, by rw [← hcur2]⟩
    · intro habs
      rw [← hs2] at habs
      simp at habs
  · -- same candle period: update in place, start time unchanged
    simp [add_bar, hval, hdup, hc, hfin] at hab
    obtain ⟨⟨hflag, hemit⟩, hs2⟩ := hab
    subst hemit
    have hold := hcur cur hc
    refine ⟨by simpa using hchain, ?_, ?_, ?_⟩
    · intro c hcm
      simp only [Option.toList_none, List.append_nil] at hcm
      obtain ⟨hd, b0, hb0, he⟩ := hems c hcm
      exact ⟨hd, b0, List.mem_append_left _ hb0, he⟩
    · intro cur2 hcur2
      rw [← hs2] at hcur2
      simp only [Option.some.injEq] at hcur2
      refine ⟨?_, ?_, ?_⟩
      · intro c hcm
        simp only [Option.toList_none, List.append_nil] at hcm
        rw [← hcur2]
        exact hold.1 c hcm
      · rw [← hcur2]
        exact hold.2.1
      · obtain ⟨b0, hb0, he⟩ := hold.2.2
        exact ⟨b0, List.mem_append_left _ hb0, by rw [← hcur2]; exact he⟩
    · intro habs
      rw [← hs2] at habs
      simp at habs

theorem run_emitting_inv (tf : ℤ) :
    ∀ (bars seen : List Bar) (s : SymbolState) (ems : List CompletedCandle),
      EmitInv tf seen s ems →
      EmitInv tf (seen ++ bars) (run_emitting tf bars s).1
        (ems ++ (run_emitting tf bars s).2) := by
  intro bars
  induction bars with
  | nil =>
    intro seen s ems h
    simpa [run_emitting] using h
  | cons b rest ih =>
    intro seen s ems h
    rcases hab : add_bar tf s b with e | r
    · have h2 := emit_inv_append_seen h [b]
      have h3 := ih (seen ++ [b]) s ems h2
      simp only [run_emitting, hab]
      simpa [List.append_assoc] using h3
    · obtain ⟨⟨flag, emitted⟩, s2⟩ := r
      have h2 := emit_inv_step h b hab
      have h3 := ih (seen ++ [b]) s2 (ems ++ emitted.toList) h2
      simp only [run_emitting, hab]
      simpa [List.append_assoc] using h3

/-- Claim C7: for every timeframe and every bar sequence fed through
`add_bar`, every completed candle's start time is an integer multiple of the
timeframe seconds — indeed it equals `_get_candle_start_time` (i.e.
`floor(ts / seconds) * seconds`) of some bar timestamp — and the completed
candles, in the order produced, have strictly increasing start times. -/
theorem completed_candles_aligned_strictly_increasing
    (tf_name : String) (tf_seconds : ℤ) (htf : (tf_name, tf_seconds) ∈ TIMEFRAMES)
    (bars : List Bar) :
    List.Chain' (fun a b => a.start_time < b.start_time)
        (run_emitting tf_seconds bars initial_symbol_state).2
      ∧ ∀ c ∈ (run_emitting tf_seconds bars initial_symbol_state).2,
          tf_seconds ∣ c.start_time
            ∧ ∃ b ∈ bars, c.start_time = get_candle_start_time tf_seconds b.timestamp := by
  have hbase : EmitInv tf_seconds [] initial_symbol_state [] := by
    refine ⟨by simp, by simp, ?_, by simp⟩
    intro cur hcur
    simp [initial_symbol_state] at hcur
  have h := run_emitting_inv tf_seconds bars [] initial_symbol_state [] hbase
  simp only [List.nil_append] at h
  exact ⟨h.1, h.2.1⟩

/-- The three-bar scenario of the spec (timeframe 1m, constant price 100,
volume 10, timestamps 0, 60, 61). -/
def scenario_bars : List Bar :=
  [{ open_price := 100, high := 100, low := 100, close := 100, timestamp := 0, volume := 10 },
   { open_price := 100, high := 100, low := 100, close := 100, timestamp := 60, volume := 10 },
   { open_price := 100, high := 100, low := 100, close := 100, timestamp := 61, volume := 10 }]

/-- Witness for C7 on the spec scenario, by direct application of the
alignment and monotonicity theorem at timeframe 1m. -/
theorem completed_candles_aligned_witness :
    List.Chain' (fun a b => a.start_time < b.start_time)
        (run_emitting 60 scenario_bars initial_symbol_state).2
      ∧ ∀ c ∈ (run_emitting 60 scenario_bars initial_symbol_state).2,
          (60 : ℤ) ∣ c.start_time
            ∧ ∃ b ∈ scenario_bars, c.start_time = get_candle_start_time 60 b.timestamp :=
  completed_candles_aligned_strictly_increasing "1m" 60 (by decide) scenario_bars

/-- Amended claim C8: calling `add_bar` with a bar whose integer-truncated
timestamp is currently in the seen set returns `(False, None)` and leaves the
whole symbol state — completed candles, building candle, accumulated volumes,
seen set — unchanged.  ("Currently in the seen set" rather than "already
processed": the seen set is capped, and a timestamp processed but since
evicted is re-applied, see the counterexample.) -/
theorem duplicate_timestamp_frame (tf : ℤ) (s : SymbolState) (b : Bar)
    (hval : b.open_price > 0 ∧ b.high > 0 ∧ b.low > 0 ∧ b.close > 0)
    (hdup : pyInt b.timestamp ∈ s.processed_timestamps) :
    add_bar tf s b = .ok ((false, none), s) := by
  simp [add_bar, hval, hdup]

/-- Witness for the amended C8 at a concrete state whose seen set holds 5. -/
theorem duplicate_timestamp_frame_witness :
    add_bar 60
        { completed_candles := [], current_candle := none,
          processed_timestamps := {5}, last_candle_time := 0 }
        { open_price := 100, high := 100, low := 100, close := 100,
          timestamp := 5, volume := 10 }
      = .ok ((false, none),
        { completed_candles := [], current_candle := none,
          processed_timestamps := {5}, last_candle_time := 0 }) := by
  apply duplicate_timestamp_frame
  · refine ⟨by norm_num, by norm_num, by norm_num, by norm_num⟩
  · show pyInt 5 ∈ ({5} : Finset ℤ)
    norm_num [pyInt]

/-- The bars driving the eviction counterexample: constant price 100,
volume 10, timestamp `60 * i` seconds. -/
def probe_bar (i : ℕ) : Bar :=
  { open_price := 100, high := 100, low := 100, close := 100,
    timestamp := ((60 * (i : ℤ) : ℤ) : ℚ), volume := 10 }

/-- State of the builder after feeding `probe_bar 0, …, probe_bar (n-1)`. -/
def probe_state (n : ℕ) : SymbolState :=
  run_bars 60 ((List.range n).map probe_bar) initial_symbol_state

theorem pyInt_intCast (n : ℤ) : pyInt ((n : ℚ)) = n := by
  simp [pyInt]

theorem probe_key (i : ℕ) : pyInt (probe_bar i).timestamp = 60 * (i : ℤ) :=
  pyInt_intCast (60 * (i : ℤ))

theorem probe_start (i : ℕ) :
    get_candle_start_time 60 (probe_bar i).timestamp = 60 * (i : ℤ) := by
  unfold get_candle_start_time
  rw [probe_key, Int.mul_fdiv_cancel_left _ (by norm_num : (60 : ℤ) ≠ 0)]
  ring

theorem probe_bar_valid (i : ℕ) :
    (probe_bar i).open_price > 0 ∧ (probe_bar i).high > 0
      ∧ (probe_bar i).low > 0 ∧ (probe_bar i).close > 0 := by
  refine ⟨by norm_num [probe_bar], by norm_num [probe_bar],
    by norm_num [probe_bar], by norm_num [probe_bar]⟩

theorem probe_state_succ (n : ℕ) :
    probe_state (n + 1) = add_bar_step 60 (probe_state n) (probe_bar n) := by
  simp [probe_state, run_bars, List.range_succ]

/-- Equation for the branch of `add_bar` that finalizes the building candle
(candle_builder.py:227-262), under explicit branch hypotheses. -/
theorem add_bar_finalize_eq (tf : ℤ) (s : SymbolState) (b : Bar) (cur : BuildingCandle)
    (hval : b.open_price > 0 ∧ b.high > 0 ∧ b.low > 0 ∧ b.close > 0)
    (hdup : pyInt b.timestamp ∉ s.processed_timestamps)
    (hc : s.current_candle = some cur)
    (hfin : should_finalize_candle tf cur.start_time b.timestamp = true) :
    add_bar tf s b = .ok
      ((true,
        some
          { open_price := cur.open_price
            high := cur.high
            low := cur.low
            close := cur.close
            volume := cur.volume
            timestamp := cur.close_time
            start_time := cur.start_time
            close_time := cur.close_time }),
        { completed_candles :=
            deque_append s.completed_candles
              { open_price := cur.open_price
                high := cur.high
                low := cur.low
                close := cur.close
                volume := cur.volume
                timestamp := cur.close_time
                start_time := cur.start_time
                close_time := cur.close_time }
              MAX_CANDLES
          current_candle :=
            some
              { open_price := b.open_price
                high := b.high
                low := b.low
                close := b.close
                volume := b.volume
                start_time := get_candle_start_time tf b.timestamp
                close_time := get_candle_start_time tf b.timestamp + tf }
          processed_timestamps :=
            evict_old_timestamps (insert (pyInt b.timestamp) s.processed_timestamps)
          last_candle_time := cur.close_time }) := by
  simp [add_bar, hval, hdup, hc, hfin]

/-- Equation for the branch of `add_bar` that keeps accumulating into the
building candle (candle_builder.py:263-268). -/
theorem add_bar_update_eq (tf : ℤ) (s : SymbolState) (b : Bar) (cur : BuildingCandle)
    (hval : b.open_price > 0 ∧ b.high > 0 ∧ b.low > 0 ∧ b.close > 0)
    (hdup : pyInt b.timestamp ∉ s.processed_timestamps)
    (hc : s.current_candle = some cur)
    (hfin : should_finalize_candle tf cur.start_time b.timestamp = false) :
    add_bar tf s b = .ok
      ((false, none),
        { completed_candles := s.completed_candles
          current_candle :=
            some
              { open_price := cur.open_price
                high := max cur.high b.high
                low := min cur.low b.low
                close := b.close
                volume := cur.volume + b.volume
                start_time := cur.start_time
                close_time := cur.close_time }
          processed_timestamps :=
            evict_old_timestamps (insert (pyInt b.timestamp) s.processed_timestamps)
          last_candle_time := s.last_candle_time }) := by
  simp [add_bar, hval, hdup, hc, hfin]

/-- Equation for the branch of `add_bar` that starts the first candle
(candle_builder.py:269-281). -/
theorem add_bar_create_eq (tf : ℤ) (s : SymbolState) (b : Bar)
    (hval : b.open_price > 0 ∧ b.high > 0 ∧ b.low > 0 ∧ b.close > 0)
    (hdup : pyInt b.timestamp ∉ s.processed_timestamps)
    (hc : s.current_candle = none) :
    add_bar tf s b = .ok
      ((false, none),
        { completed_candles := s.completed_candles
          current_candle :=
            some
              { open_price := b.open_price
                high := b.high
                low := b.low
                close := b.close
                volume := b.volume
                start_time := get_candle_start_time tf b.timestamp
                close_time := get_candle_start_time tf b.timestamp + tf }
          processed_timestamps :=
            evict_old_timestamps (insert (pyInt b.timestamp) s.processed_timestamps)
          last_candle_time := s.last_candle_time }) := by
  simp [add_bar, hval, hdup, hc]

theorem add_bar_step_of_eq {tf : ℤ} {s : SymbolState} {b : Bar}
    {r : Bool × Option CompletedCandle} {s2 : SymbolState}
    (h : add_bar tf s b = .ok (r, s2)) : add_bar_step tf s b = s2 := by
  simp [add_bar_step, h]

theorem probe_sixty_injective : Function.Injective (fun i : ℕ => (60 * (i : ℤ))) := by
  intro a b hab
  simp only at hab
  omega

theorem probe_finset_card (n : ℕ) :
    (((List.range n).map (fun i : ℕ => (60 * (i : ℤ)))).toFinset).card = n := by
  rw [List.toFinset_card_of_nodup]
  · simp
  · exact (List.nodup_range n).map probe_sixty_injective

theorem probe_not_mem_finset (n : ℕ) :
    (60 * (n : ℤ)) ∉ ((List.range n).map (fun i : ℕ => (60 * (i : ℤ)))).toFinset := by
  simp only [List.mem_toFinset, List.mem_map, List.mem_range]
  rintro ⟨i, hi, he⟩
  omega

theorem probe_insert_finset (n : ℕ) :
    insert (60 * (n : ℤ)) (((List.range n).map (fun i : ℕ => (60 * (i : ℤ)))).toFinset)
      = ((List.range (n + 1)).map (fun i : ℕ => (60 * (i : ℤ)))).toFinset := by
  rw [List.range_succ]
  simp [List.toFinset_append, Finset.insert_eq, Finset.union_comm]

/-- Closed form of the probe run while no eviction has happened: the seen
set holds the first `n` multiples of 60 and the building candle is the
fresh candle of the latest bar. -/
theorem probe_state_closed : ∀ n, 1 ≤ n → n ≤ 10000 →
    (probe_state n).processed_timestamps
        = ((List.range n).map (fun i : ℕ => (60 * (i : ℤ)))).toFinset
      ∧ (probe_state n).current_candle
        = some { open_price := 100, high := 100, low := 100, close := 100,
                 volume := 10, start_time := 60 * ((n : ℤ) - 1),
                 close_time := 60 * ((n : ℤ) - 1) + 60 } := by
  intro n
  induction n with
  | zero => omega
  | succ m ih =>
    intro _ hle
    rcases Nat.eq_zero_or_pos m with hm | hm
    · -- first bar: creates the first building candle
      subst hm
      have hdup : pyInt (probe_bar 0).timestamp
          ∉ (probe_state 0).processed_timestamps := by
        simp [probe_state, run_bars, initial_symbol_state]
      have hc : (probe_state 0).current_candle = none := by
        simp [probe_state, run_bars, initial_symbol_state]
      have heq := add_bar_create_eq 60 (probe_state 0) (probe_bar 0)
        (probe_bar_valid 0) hdup hc
      rw [probe_state_succ 0, add_bar_step_of_eq heq]
      have hproc0 : (probe_state 0).processed_timestamps = ∅ := by
        simp [probe_state, run_bars, initial_symbol_state]
      constructor
      · simp only [hproc0, probe_key]
        rw [evict_old_timestamps, if_neg (by simp)]
        simp [List.range_succ]
      · simp [probe_bar, probe_start]
        norm_num [get_candle_start_time, pyInt]

    · -- subsequent bar: finalizes the previous candle, starts a new one
      obtain ⟨hproc, hcur⟩ := ih hm (by omega)
      have hdup : pyInt (probe_bar m).timestamp
          ∉ (probe_state m).processed_timestamps := by
        rw [probe_key, hproc]
        exact probe_not_mem_finset m
      have hfin : should_finalize_candle 60
          (60 * ((m : ℤ) - 1)) (probe_bar m).timestamp = true := by
        simp only [should_finalize_candle, probe_start, gt_iff_lt, decide_eq_true_eq]
        omega
      have heq := add_bar_finalize_eq 60 (probe_state m) (probe_bar m) _
        (probe_bar_valid m) hdup hcur (by simpa using hfin)
      rw [probe_state_succ m, add_bar_step_of_eq heq]
      have hnoev : evict_old_timestamps (insert (pyInt (probe_bar m).timestamp)
          (probe_state m).processed_timestamps)
          = insert (pyInt (probe_bar m).timestamp)
              (probe_state m).processed_timestamps := by
        rw [evict_old_timestamps, if_neg]
        rw [Finset.card_insert_of_not_mem hdup, hproc, probe_finset_card]
        omega
      constructor
      · rw [hnoev]
        simp only [probe_key, hproc]
        exact probe_insert_finset m
      · simp only [probe_start]
        simp [probe_bar]

theorem zero_mem_take {l : List ℤ} (hs : l.Sorted (· ≤ ·)) (h0 : (0 : ℤ) ∈ l)
    (hpos : ∀ x ∈ l, (0 : ℤ) ≤ x) {k : ℕ} (hk : 0 < k) : (0 : ℤ) ∈ l.take k := by
  cases l with
  | nil => simp at h0
  | cons a t =>
    have ha : a = 0 := by
      rcases List.mem_cons.mp h0 with h | h
      · exact h.symm
      · have h1 : a ≤ 0 := (List.sorted_cons.mp hs).1 0 h
        have h2 : 0 ≤ a := hpos a (List.mem_cons_self a t)
        omega
    subst ha
    obtain ⟨k0, rfl⟩ : ∃ k0, k = k0 + 1 := ⟨k - 1, by omega⟩
    rw [List.take_succ_cons]
    exact List.mem_cons_self 0 _

/-- After the 10001st distinct probe bar the seen-set cap has evicted the
oldest 2000 timestamps — among them 0 — and the building candle is the fresh
candle of timestamp 600000 with volume 10. -/
theorem probe_state_10001 :
    ((0 : ℤ) ∉ (probe_state 10001).processed_timestamps)
      ∧ (probe_state 10001).current_candle
        = some { open_price := 100, high := 100, low := 100, close := 100,
                 volume := 10, start_time := 600000, close_time := 600060 } := by
  obtain ⟨hproc, hcur⟩ := probe_state_closed 10000 (by norm_num) (by norm_num)
  have hdup : pyInt (probe_bar 10000).timestamp
      ∉ (probe_state 10000).processed_timestamps := by
    rw [probe_key, hproc]
    exact probe_not_mem_finset 10000
  have hfin : should_finalize_candle 60
      (60 * (((10000 : ℕ) : ℤ) - 1)) (probe_bar 10000).timestamp = true := by
    simp only [should_finalize_candle, probe_start, gt_iff_lt, decide_eq_true_eq]
    norm_num
  have heq := add_bar_finalize_eq 60 (probe_state 10000) (probe_bar 10000) _
    (probe_bar_valid 10000) hdup hcur (by simpa using hfin)
  rw [(by norm_num : (10001 : ℕ) = 10000 + 1), probe_state_succ 10000,
    add_bar_step_of_eq heq]
  constructor
  · simp only [probe_key, hproc]
    rw [probe_insert_finset 10000]
    rw [evict_old_timestamps, if_pos]
    swap
    · rw [probe_finset_card]
      norm_num
    · set S := ((List.range (10000 + 1)).map (fun i : ℕ => (60 * (i : ℤ)))).toFinset with hS
      have h0S : (0 : ℤ) ∈ S := by
        rw [hS]
        simp only [List.mem_toFinset, List.mem_map, List.mem_range]
        exact ⟨0, by norm_num, by norm_num⟩
      have h0sort : (0 : ℤ) ∈ S.sort (· ≤ ·) := (Finset.mem_sort _).mpr h0S
      have hpos : ∀ x ∈ S.sort (· ≤ ·), (0 : ℤ) ≤ x := by
        intro x hx
        have hx2 := (Finset.mem_sort (α := ℤ) (· ≤ ·)).mp hx
        rw [hS] at hx2
        simp only [List.mem_toFinset, List.mem_map, List.mem_range] at hx2
        obtain ⟨i, _, rfl⟩ := hx2
        positivity
      have htake := zero_mem_take (Finset.sort_sorted (· ≤ ·) S) h0sort hpos
        (by norm_num : 0 < 2000)
      simp only [Finset.mem_sdiff, not_and, not_not]
      intro _
      exact List.mem_toFinset.mpr htake
  · simp only [probe_start]
    simp [probe_bar]

/-- Counterexample to claim C8 as stated: the run feeds 10001 bars with
distinct timestamps 0, 60, …, 600000 (so timestamp 0 has "already been
processed" — it enters the seen set with the first bar); the seen-set cap
(candle_builder.py:211-215) then evicts the oldest 2000 entries, so re-adding
the bar with timestamp 0 is not treated as a duplicate: it still returns
`(False, None)`, but it is folded into the building candle, whose accumulated
volume doubles from 10 to 20 — double-counted volume, contradicting the
frame part of the claim. -/
theorem duplicate_eviction_counterexample :
    (0 : ℤ) ∈ (probe_state 1).processed_timestamps
      ∧ pyInt (probe_bar 0).timestamp = 0
      ∧ Option.map (fun c => c.volume) (probe_state 10001).current_candle = some 10
      ∧ ∃ s2, add_bar 60 (probe_state 10001) (probe_bar 0) = .ok ((false, none), s2)
          ∧ Option.map (fun c => c.volume) s2.current_candle = some 20 := by
  obtain ⟨hproc1, _⟩ := probe_state_closed 1 (by norm_num) (by norm_num)
  obtain ⟨hnot0, hcur0⟩ := probe_state_10001
  refine ⟨?_, ?_, ?_, ?_⟩
  · rw [hproc1]
    simp
  · rw [probe_key]
    norm_num
  · rw [hcur0]
    rfl
  · have hdup0 : pyInt (probe_bar 0).timestamp
        ∉ (probe_state 10001).processed_timestamps := by
      rw [probe_key]
      simpa using hnot0
    have hfin0 : should_finalize_candle 60 (600000 : ℤ) (probe_bar 0).timestamp
        = false := by
      simp only [should_finalize_candle, probe_start, gt_iff_lt]
      norm_num
    have heq := add_bar_update_eq 60 (probe_state 10001) (probe_bar 0) _
      (probe_bar_valid 0) hdup0 hcur0 (by simpa using hfin0)
    refine ⟨_, heq, ?_⟩
    simp [probe_bar]

end CandleBuilder

namespace IndicatorEngine

/-! Embedding of `src/app/core/indicator_engine.py` (class `IndicatorEngine`).

As with the candle builder, all state is held in per-symbol maps and every
update touches a single symbol, so we model one symbol's state.  The numeric
indicator values are computed by the external `ta` library, whose code is not
part of this repository; those value functions are modelled from the spec
(spec §4.2) over `ℚ`, with float edge cases (NaN from a zero denominator,
which makes the guarded `pd.isna` checks drop the indicator) modelled as
`Option.none`.  No claim below depends on the numeric values themselves.

The indicator dict is built by a sequence of Python dict assignments whose
keys are pairwise distinct and absent from the dict at assignment time, so
in the association-list model the construction is a concatenation of
segments in source order; the per-period loops are unrolled over the
configured period lists with the keys the f-strings produce. -/

/-- One stored candle (indicator_engine.py:140-146). -/
structure Candle where
  open_price : ℚ
  high : ℚ
  low : ℚ
  close : ℚ
  timestamp : ℚ

/-- Configured periods (indicator_engine.py:63-72). -/
def ma_periods : List ℕ := [20, 50, 100, 200]

/-- Configured EMA periods (indicator_engine.py:65). -/
def ema_periods : List ℕ := [6, 9, 10, 13, 20, 21, 34, 50]

/-- RSI period (indicator_engine.py:66). -/
def rsi_period : ℕ := 14

/-- ADX period (indicator_engine.py:67). -/
def adx_period : ℕ := 5

/-- MACD fast period (indicator_engine.py:68). -/
def macd_fast : ℕ := 12

/-- MACD slow period (indicator_engine.py:69). -/
def macd_slow : ℕ := 26

/-- MACD signal period (indicator_engine.py:70). -/
def macd_signal : ℕ := 9

/-- Bollinger period (indicator_engine.py:71). -/
def bb_period : ℕ := 20

/-- Bollinger standard-deviation multiplier (indicator_engine.py:72). -/
def bb_std_dev : ℚ := 2

/-- Default rolling-history capacity (indicator_engine.py:49). -/
def max_history : ℕ := 250

/-- Modelled from the spec: simple moving average over the last `p` prices
(the last value of `ta.trend.sma_indicator`). -/
def sma_last (prices : List ℚ) (p : ℕ) : ℚ :=
  (prices.drop (prices.length - p)).sum / p

/-- Modelled from the spec: the recursive EMA series seeded by the SMA of
the first window (`ta.trend.ema_indicator`); entry `i` is the EMA at input
index `p - 1 + i`. -/
def ema_series (prices : List ℚ) (p : ℕ) : List ℚ :=
  let seed := (prices.take p).sum / p
  let a : ℚ := 2 / (p + 1)
  (prices.drop p).scanl (fun e x => a * x + (1 - a) * e) seed

/-- Modelled from the spec: last EMA value. -/
def ema_last (prices : List ℚ) (p : ℕ) : ℚ :=
  (ema_series prices p).getLastD 0

/-- Modelled from the spec: the MACD series, fast EMA minus slow EMA where
both are defined (`ta.trend.macd`). -/
def macd_series (prices : List ℚ) (fast slow : ℕ) : List ℚ :=
  List.zipWith (fun a b => a - b)
    ((ema_series prices fast).drop (slow - fast)) (ema_series prices slow)

/-- Modelled from the spec: last MACD value. -/
def macd_last (prices : List ℚ) (fast slow : ℕ) : ℚ :=
  (macd_series prices fast slow).getLastD 0

/-- Modelled from the spec: last MACD signal value, the EMA of the MACD
series (`ta.trend.macd_signal`). -/
def macd_signal_last (prices : List ℚ) (fast slow sig : ℕ) : ℚ :=
  ema_last (macd_series prices fast slow) sig

/-- Modelled from the spec: last MACD histogram value, MACD minus signal
(`ta.trend.macd_diff`). -/
def macd_hist_last (prices : List ℚ) (fast slow sig : ℕ) : ℚ :=
  macd_last prices fast slow - macd_signal_last prices fast slow sig

/-- Modelled from the spec: Wilder smoothing — seed with the mean of the
first `p` values, then `avg = (avg * (p-1) + x) / p`. -/
def wilder_avg (xs : List ℚ) (p : ℕ) : ℚ :=
  let seed := (xs.take p).sum / p
  (xs.drop p).foldl (fun a x => (a * ((p : ℚ) - 1) + x) / p) seed

/-- Modelled from the spec: RSI via average-gain/average-loss smoothing
(`ta.momentum.rsi`); a zero average loss yields NaN (0/0) or plus infinity
(RSI pinned at 100) in floats, modelled as `none` / `some 100`. -/
def rsi_last (prices : List ℚ) (p : ℕ) : Option ℚ :=
  let diffs := List.zipWith (fun a b => b - a) prices prices.tail
  let gains := diffs.map (fun d => max d 0)
  let losses := diffs.map (fun d => max (-d) 0)
  let ag := wilder_avg gains p
  let al := wilder_avg losses p
  if al = 0 then (if ag = 0 then none else some 100)
  else some (100 - 100 / (1 + ag / al))

/-- Modelled from the spec: ADX — smoothed directional movement over
smoothed true range (`ta.trend.adx`); zero denominators are NaN in floats,
modelled as `none`. -/
def adx_last (candles : List Candle) (p : ℕ) : Option ℚ :=
  let pairs := List.zip candles candles.tail
  let tr := pairs.map (fun ab =>
    max (ab.2.high - ab.2.low)
      (max |ab.2.high - ab.1.close| |ab.2.low - ab.1.close|))
  let pdm := pairs.map (fun ab =>
    let up := ab.2.high - ab.1.high
    let dn := ab.1.low - ab.2.low
    if up > dn ∧ up > 0 then up else 0)
  let ndm := pairs.map (fun ab =>
    let up := ab.2.high - ab.1.high
    let dn := ab.1.low - ab.2.low
    if dn > up ∧ dn > 0 then dn else 0)
  let str := wilder_avg tr p
  if str = 0 then none
  else
    let pdi := 100 * wilder_avg pdm p / str
    let ndi := 100 * wilder_avg ndm p / str
    if pdi + ndi = 0 then none else some (100 * |pdi - ndi| / (pdi + ndi))

/-- Modelled from the spec: Bollinger bands — middle is the SMA, upper and
lower are middle plus/minus `k` population standard deviations
(`ta.volatility.bollinger_hband` and friends).  The square root of the
variance is not representable in `ℚ`, so it is taken as the parameter
`sqrtQ`; every theorem below is independent of it. -/
def bb_values (sqrtQ : ℚ → ℚ) (prices : List ℚ) (p : ℕ) (k : ℚ) : ℚ × ℚ × ℚ :=
  let middle := sma_last prices p
  let window := prices.drop (prices.length - p)
  let variance := (window.map (fun x => (x - middle) * (x - middle))).sum / p
  let dev := sqrtQ variance
  (middle + k * dev, middle, middle - k * dev)

/-- The SMA section of `_calculate_indicators_for_symbol`
(indicator_engine.py:442-447): the loop over `ma_periods` unrolled. -/
def ma_entries (closes : List ℚ) (n : ℕ) : List (String × ℚ) :=
  (if 20 ≤ n then [("MA20", sma_last closes 20)] else [])
    ++ (if 50 ≤ n then [("MA50", sma_last closes 50)] else [])
    ++ (if 100 ≤ n then [("MA100", sma_last closes 100)] else [])
    ++ (if 200 ≤ n then [("MA200", sma_last closes 200)] else [])

/-- The EMA section (indicator_engine.py:449-454): the loop over
`ema_periods` unrolled. -/
def ema_entries (closes : List ℚ) (n : ℕ) : List (String × ℚ) :=
  (if 6 ≤ n then [("EMA6", ema_last closes 6)] else [])
    ++ (if 9 ≤ n then [("EMA9", ema_last closes 9)] else [])
    ++ (if 10 ≤ n then [("EMA10", ema_last closes 10)] else [])
    ++ (if 13 ≤ n then [("EMA13", ema_last closes 13)] else [])
    ++ (if 20 ≤ n then [("EMA20", ema_last closes 20)] else [])
    ++ (if 21 ≤ n then [("EMA21", ema_last closes 21)] else [])
    ++ (if 34 ≤ n then [("EMA34", ema_last closes 34)] else [])
    ++ (if 50 ≤ n then [("EMA50", ema_last closes 50)] else [])

/-- The MACD section (indicator_engine.py:456-468). -/
def macd_entries (closes : List ℚ) (n : ℕ) : List (String × ℚ) :=
  if macd_slow + macd_signal ≤ n then
    [("MACD", macd_last closes macd_fast macd_slow),
     ("MACD_SIGNAL", macd_signal_last closes macd_fast macd_slow macd_signal),
     ("MACD_HIST", macd_hist_last closes macd_fast macd_slow macd_signal)]
  else []

/-- The RSI section (indicator_engine.py:470-474). -/
def rsi_entries (closes : List ℚ) (n : ℕ) : List (String × ℚ) :=
  if rsi_period + 1 ≤ n then
    match rsi_last closes rsi_period with
    | some v => [("RSI14", v)]
    | none => []
  else []

/-- The ADX section (indicator_engine.py:476-483). -/
def adx_entries (hist : List Candle) (n : ℕ) : List (String × ℚ) :=
  if adx_period + 1 ≤ n then
    match adx_last hist adx_period with
    | some v => [("ADX5", v)]
    | none => []
  else []

/-- The Bollinger section (indicator_engine.py:485-498). -/
def bb_entries (sqrtQ : ℚ → ℚ) (closes : List ℚ) (n : ℕ) : List (String × ℚ) :=
  if bb_period ≤ n then
    let v := bb_values sqrtQ closes bb_period bb_std_dev
    [("BB_UPPER", v.1), ("BB_MIDDLE", v.2.1), ("BB_LOWER", v.2.2),
     ("BB_WIDTH", v.1 - v.2.2)]
  else []

/-- The previous-value shadow loop (indicator_engine.py:507-512): every key
of the previous snapshot except `PRICE_EMA20_DIFF_PCT` is re-added with a
`_PREV` suffix. -/
def shadow_entries (prev : List (String × ℚ)) : List (String × ℚ) :=
  prev.filterMap (fun kv =>
    if kv.1 = "PRICE_EMA20_DIFF_PCT" then none else some (kv.1 ++ "_PREV", kv.2))

/-- The freshly computed part of the snapshot, in source order
(indicator_engine.py:430-505): PRICE, previous-candle data, SMAs, EMAs,
MACD, RSI, ADX, Bollinger, and the derived `PRICE_EMA20_DIFF_PCT`. -/
def fresh_entries (sqrtQ : ℚ → ℚ) (hist : List Candle) : List (String × ℚ) :=
  let closes := hist.map (fun c => c.close)
  let n := hist.length
  let current_price := closes.getLastD 0
  let base :=
    [("PRICE", current_price)]
      ++ (if 2 ≤ n then
            [("PREV_CLOSE", closes.getD (n - 2) 0),
             ("PREV_OPEN", (hist.map (fun c => c.open_price)).getD (n - 2) 0)]
          else [])
      ++ ma_entries closes n
      ++ ema_entries closes n
      ++ macd_entries closes n
      ++ rsi_entries closes n
      ++ adx_entries hist n
      ++ bb_entries sqrtQ closes n
  base
    ++ (match lookupKey base "EMA20" with
        | some e20 =>
          if e20 ≠ 0 then [("PRICE_EMA20_DIFF_PCT", |current_price - e20| / e20)]
          else []
        | none => [])

/-- `IndicatorEngine._calculate_indicators_for_symbol`
(indicator_engine.py:406-519): fresh values first, then the `_PREV` shadows
of the previous snapshot. -/
def calculate_indicators (sqrtQ : ℚ → ℚ) (hist : List Candle)
    (prev : List (String × ℚ)) : List (String × ℚ) :=
  fresh_entries sqrtQ hist ++ shadow_entries prev

/-- Per-symbol engine state (indicator_engine.py:57-59, initialized at
lines 74-86). -/
structure SymbolData where
  candle_data : List Candle
  indicators : List (String × ℚ)
  prev_indicators : List (String × ℚ)

/-- State of a freshly initialized symbol (indicator_engine.py:81-85). -/
def initial_symbol_data : SymbolData :=
  { candle_data := [], indicators := [], prev_indicators := [] }

/-- `IndicatorEngine.update_candle_data` (indicator_engine.py:108-152):
validate prices, snapshot the previous indicators when non-empty, append the
candle to the bounded history, recompute. -/
def update_candle_data (sqrtQ : ℚ → ℚ) (s : SymbolData)
    (open_price high low close timestamp : ℚ) : Except String SymbolData :=
  if ¬(open_price > 0 ∧ high > 0 ∧ low > 0 ∧ close > 0) then
    .error ("Invalid price values")
  else
    let prev2 := if s.indicators.isEmpty then s.prev_indicators else s.indicators
    let hist2 := CandleBuilder.deque_append s.candle_data
      { open_price := open_price, high := high, low := low, close := close,
        timestamp := timestamp } max_history
    let ind2 := if hist2.isEmpty then s.indicators
      else calculate_indicators sqrtQ hist2 prev2
    .ok { candle_data := hist2, indicators := ind2, prev_indicators := prev2 }

/-- `IndicatorEngine.is_symbol_ready` (indicator_engine.py:546-560): ready
once the history holds at least `macd_slow + macd_signal` candles — the
MACD requirement, which the source comment calls the slowest indicator. -/
def is_symbol_ready (s : SymbolData) : Bool :=
  decide (macd_slow + macd_signal ≤ s.candle_data.length)

theorem lookupKey_append_none {α : Type} {a : List (String × α)} (b : List (String × α))
    {k : String} (h : lookupKey a k = none) : lookupKey (a ++ b) k = lookupKey b k := by
  rw [lookupKey_append, h]

theorem lookupKey_append_some {α : Type} {a : List (String × α)} (b : List (String × α))
    {k : String} {v : α} (h : lookupKey a k = some v) :
    lookupKey (a ++ b) k = some v := by
  rw [lookupKey_append, h]

theorem lookupKey_none_of_keys {α : Type} (l : List (String × α)) (key : String)
    (h : ∀ kv ∈ l, kv.1 ≠ key) : lookupKey l key = none := by
  induction l with
  | nil => rfl
  | cons kv rest ih =>
    obtain ⟨k0, v0⟩ := kv
    have hk0 : k0 ≠ key := h (k0, v0) (List.mem_cons_self _ _)
    simp only [lookupKey, if_neg hk0]
    exact ih (fun kv2 hkv2 => h kv2 (List.mem_cons_of_mem _ hkv2))

/-- A string not ending in `_PREV` is never of the form `k ++ "_PREV"`. -/
theorem ne_of_no_prev_suffix {K : String} (hK : ¬("_PREV".data <:+ K.data))
    (k : String) : K ≠ k ++ "_PREV" := by
  intro he
  apply hK
  refine ⟨k.data, ?_⟩
  have hd := congrArg String.data he
  rw [String.data_append] at hd
  exact hd.symm

/-- The keys the fresh computation may produce. -/
def fresh_keys : List String :=
  ["PRICE", "PREV_CLOSE", "PREV_OPEN",
   "MA20", "MA50", "MA100", "MA200",
   "EMA6", "EMA9", "EMA10", "EMA13", "EMA20", "EMA21", "EMA34", "EMA50",
   "MACD", "MACD_SIGNAL", "MACD_HIST", "RSI14", "ADX5",
   "BB_UPPER", "BB_MIDDLE", "BB_LOWER", "BB_WIDTH", "PRICE_EMA20_DIFF_PCT"]

theorem mem_ite_singleton {α : Type} {x a : α} {c : Prop} [Decidable c]
    (h : x ∈ (if c then [a] else ([] : List α))) : x = a := by
  split_ifs at h
  · exact List.mem_singleton.mp h
  · simp at h

theorem keys_ma_entries (closes : List ℚ) (n : ℕ) :
    ∀ kv ∈ ma_entries closes n, kv.1 ∈ fresh_keys := by
  intro kv hkv
  unfold ma_entries at hkv
  rcases List.mem_append.mp hkv with hkv | h
  swap
  · rw [mem_ite_singleton h]; simp [fresh_keys]
  rcases List.mem_append.mp hkv with hkv | h
  swap
  · rw [mem_ite_singleton h]; simp [fresh_keys]
  rcases List.mem_append.mp hkv with hkv | h
  swap
  · rw [mem_ite_singleton h]; simp [fresh_keys]
  rw [mem_ite_singleton hkv]; simp [fresh_keys]

theorem keys_ema_entries (closes : List ℚ) (n : ℕ) :
    ∀ kv ∈ ema_entries closes n, kv.1 ∈ fresh_keys := by
  intro kv hkv
  unfold ema_entries at hkv
  rcases List.mem_append.mp hkv with hkv | h
  swap
  · rw [mem_ite_singleton h]; simp [fresh_keys]
  rcases List.mem_append.mp hkv with hkv | h
  swap
  · rw [mem_ite_singleton h]; simp [fresh_keys]
  rcases List.mem_append.mp hkv with hkv | h
  swap
  · rw [mem_ite_singleton h]; simp [fresh_keys]
  rcases List.mem_append.mp hkv with hkv | h
  swap
  · rw [mem_ite_singleton h]; simp [fresh_keys]
  rcases List.mem_append.mp hkv with hkv | h
  swap
  · rw [mem_ite_singleton h]; simp [fresh_keys]
  rcases List.mem_append.mp hkv with hkv | h
  swap
  · rw [mem_ite_singleton h]; simp [fresh_keys]
  rcases List.mem_append.mp hkv with hkv | h
  swap
  · rw [mem_ite_singleton h]; simp [fresh_keys]
  rw [mem_ite_singleton hkv]; simp [fresh_keys]

theorem keys_macd_entries (closes : List ℚ) (n : ℕ) :
    ∀ kv ∈ macd_entries closes n, kv.1 ∈ fresh_keys := by
  intro kv hkv
  simp only [macd_entries] at hkv
  split_ifs at hkv
  · simp only [List.mem_cons, List.not_mem_nil, or_false] at hkv
    rcases hkv with rfl | rfl | rfl <;> simp [fresh_keys]
  · simp at hkv

theorem keys_rsi_entries (closes : List ℚ) (n : ℕ) :
    ∀ kv ∈ rsi_entries closes n, kv.1 ∈ fresh_keys := by
  intro kv hkv
  simp only [rsi_entries] at hkv
  split_ifs at hkv
  · cases hr : rsi_last closes rsi_period with
    | some v => rw [hr] at hkv; simp_all [fresh_keys]
    | none => rw [hr] at hkv; simp at hkv
  · simp at hkv

theorem keys_adx_entries (hist : List Candle) (n : ℕ) :
    ∀ kv ∈ adx_entries hist n, kv.1 ∈ fresh_keys := by
  intro kv hkv
  simp only [adx_entries] at hkv
  split_ifs at hkv
  · cases hr : adx_last hist adx_period with
    | some v => rw [hr] at hkv; simp_all [fresh_keys]
    | none => rw [hr] at hkv; simp at hkv
  · simp at hkv

theorem keys_bb_entries (sqrtQ : ℚ → ℚ) (closes : List ℚ) (n : ℕ) :
    ∀ kv ∈ bb_entries sqrtQ closes n, kv.1 ∈ fresh_keys := by
  intro kv hkv
  simp only [bb_entries] at hkv
  split_ifs at hkv
  · simp only [List.mem_cons, List.not_mem_nil, or_false] at hkv
    rcases hkv with rfl | rfl | rfl | rfl <;> simp [fresh_keys]
  · simp at hkv

theorem keys_fresh_entries (sqrtQ : ℚ → ℚ) (hist : List Candle) :
    ∀ kv ∈ fresh_entries sqrtQ hist, kv.1 ∈ fresh_keys := by
  intro kv hkv
  unfold fresh_entries at hkv
  rcases List.mem_append.mp hkv with hkv | h
  swap
  · rcases hl : lookupKey _ "EMA20" with _ | e20 <;> rw [hl] at h
    · simp at h
    · dsimp only at h
      split_ifs at h <;> simp_all [fresh_keys]
  rcases List.mem_append.mp hkv with hkv | h
  swap
  · exact keys_bb_entries _ _ _ kv h
  rcases List.mem_append.mp hkv with hkv | h
  swap
  · exact keys_adx_entries _ _ kv h
  rcases List.mem_append.mp hkv with hkv | h
  swap
  · exact keys_rsi_entries _ _ kv h
  rcases List.mem_append.mp hkv with hkv | h
  swap
  · exact keys_macd_entries _ _ kv h
  rcases List.mem_append.mp hkv with hkv | h
  swap
  · exact keys_ema_entries _ _ kv h
  rcases List.mem_append.mp hkv with hkv | h
  swap
  · exact keys_ma_entries _ _ kv h
  rcases List.mem_append.mp hkv with hkv | h
  swap
  · split_ifs at h
    · simp only [List.mem_cons, List.not_mem_nil, or_false] at h
      rcases h with rfl | rfl <;> simp [fresh_keys]
    · simp at h
  · rw [List.mem_singleton.mp hkv]
    simp [fresh_keys]

/-- No fresh key has the `_PREV` shadow form. -/
theorem lookup_fresh_prev_suffix_none (sqrtQ : ℚ → ℚ) (hist : List Candle)
    (k : String) : lookupKey (fresh_entries sqrtQ hist) (k ++ "_PREV") = none := by
  apply lookupKey_none_of_keys
  intro kv hkv
  have hmem := keys_fresh_entries sqrtQ hist kv hkv
  simp only [fresh_keys, List.mem_cons, List.not_mem_nil, or_false] at hmem
  rcases hmem with h | h | h | h | h | h | h | h | h | h | h | h | h | h | h | h | h | h | h | h | h | h | h | h | h <;> rw [h] <;>
    exact ne_of_no_prev_suffix (by decide) k

/-- First-match lookup of a shadowed key: the first `prev` entry with key
`k` becomes the first shadow entry with key `k ++ "_PREV"`. -/
theorem lookup_shadow (prev : List (String × ℚ)) (k : String) (v : ℚ)
    (hk : k ≠ "PRICE_EMA20_DIFF_PCT") (hfind : lookupKey prev k = some v) :
    lookupKey (shadow_entries prev) (k ++ "_PREV") = some v := by
  induction prev with
  | nil => simp [lookupKey] at hfind
  | cons kv rest ih =>
    obtain ⟨k0, v0⟩ := kv
    by_cases h0 : k0 = k
    · subst h0
      have hfind2 : v0 = v := by simpa [lookupKey] using hfind
      subst hfind2
      simp only [shadow_entries, List.filterMap_cons, if_neg hk]
      simp [lookupKey]
    · simp only [lookupKey, if_neg h0] at hfind
      by_cases hp : k0 = "PRICE_EMA20_DIFF_PCT"
      · simp only [shadow_entries, List.filterMap_cons, if_pos hp]
        exact ih hfind
      · simp only [shadow_entries, List.filterMap_cons, if_neg hp]
        have hne : k0 ++ "_PREV" ≠ k ++ "_PREV" := by
          intro he
          apply h0
          have hd := congrArg String.data he
          rw [String.data_append, String.data_append] at hd
          have h2 := List.append_cancel_right hd
          exact String.ext h2
        simp only [lookupKey, if_neg hne]
        exact ih hfind

/-- Shadow keys all end in `_PREV`, so a key that does not is absent. -/
theorem lookup_shadow_not_prev (prev : List (String × ℚ)) (K : String)
    (hK : ¬("_PREV".data <:+ K.data)) :
    lookupKey (shadow_entries prev) K = none := by
  apply lookupKey_none_of_keys
  intro kv hkv
  simp only [shadow_entries, List.mem_filterMap] at hkv
  obtain ⟨kv0, _, hkv0⟩ := hkv
  split_ifs at hkv0
  simp only [Option.some.injEq] at hkv0
  have hk1 : kv.1 = kv0.1 ++ "_PREV" := by rw [← hkv0]
  intro he
  exact ne_of_no_prev_suffix hK kv0.1 (by rw [← he, hk1])

theorem shadow_entries_eq_map_filter (prev : List (String × ℚ)) :
    shadow_entries prev
      = (prev.filter (fun kv => ¬(kv.1 = "PRICE_EMA20_DIFF_PCT"))).map
          (fun kv => (kv.1 ++ "_PREV", kv.2)) := by
  induction prev with
  | nil => rfl
  | cons kv rest ih =>
    by_cases hp : kv.1 = "PRICE_EMA20_DIFF_PCT" <;>
      simp [shadow_entries, List.filterMap_cons, List.filter_cons, hp, ih,
        shadow_entries] at ih ⊢ <;> simp [ih]

theorem deque_append_length {α : Type} (l : List α) (c : α) (m : ℕ) :
    (CandleBuilder.deque_append l c m).length = min (l.length + 1) m := by
  simp [CandleBuilder.deque_append]
  omega

theorem shadow_entries_length_all_kept (prev : List (String × ℚ))
    (h : ∀ kv ∈ prev, kv.1 ≠ "PRICE_EMA20_DIFF_PCT") :
    (shadow_entries prev).length = prev.length := by
  induction prev with
  | nil => rfl
  | cons kv rest ih =>
    have hk := h kv (List.mem_cons_self _ _)
    simp only [shadow_entries, List.filterMap_cons, if_neg hk]
    simp only [List.length_cons]
    rw [show List.filterMap _ rest = shadow_entries rest from rfl,
      ih (fun kv2 hkv2 => h kv2 (List.mem_cons_of_mem _ hkv2))]

theorem shadow_entries_length (prev : List (String × ℚ))
    (hnodup : (prev.map Prod.fst).Nodup) :
    prev.length ≤ (shadow_entries prev).length + 1 := by
  induction prev with
  | nil => simp [shadow_entries]
  | cons kv rest ih =>
    simp only [List.map_cons, List.nodup_cons] at hnodup
    by_cases hp : kv.1 = "PRICE_EMA20_DIFF_PCT"
    · have hall : ∀ kv2 ∈ rest, kv2.1 ≠ "PRICE_EMA20_DIFF_PCT" := by
        intro kv2 hkv2 habs
        apply hnodup.1
        rw [hp, ← habs]
        exact List.mem_map_of_mem Prod.fst hkv2
      simp only [shadow_entries, List.filterMap_cons, if_pos hp]
      rw [show List.filterMap _ rest = shadow_entries rest from rfl,
        shadow_entries_length_all_kept rest hall]
      simp
    · simp only [shadow_entries, List.filterMap_cons, if_neg hp]
      have ih2 := ih hnodup.2
      simp only [List.length_cons]
      rw [show List.filterMap _ rest = shadow_entries rest from rfl]
      omega

theorem fresh_entries_length_ge (sqrtQ : ℚ → ℚ) (hist : List Candle)
    (h2 : 2 ≤ hist.length) : 3 ≤ (fresh_entries sqrtQ hist).length := by
  simp only [fresh_entries, List.length_append, if_pos h2]
  simp only [List.length_cons, List.length_singleton]
  omega

/-- Claim C10: after an indicator update for a symbol whose prior snapshot
was non-empty, the new snapshot maps `k_PREV` to the prior value of every
prior key `k` except `PRICE_EMA20_DIFF_PCT` — including keys that already
end in `_PREV`, so successive updates produce `MA20_PREV`,
`MA20_PREV_PREV`, … — and the snapshot gains at least two keys per update
instead of staying a fixed set plus one shadow per indicator. -/
theorem prev_shadow_accumulation (sqrtQ : ℚ → ℚ) (s : SymbolData)
    (o hi lo c ts : ℚ)
    (hval : o > 0 ∧ hi > 0 ∧ lo > 0 ∧ c > 0)
    (hne : s.indicators ≠ [])
    (hnodup : (s.indicators.map Prod.fst).Nodup)
    (hhist : s.candle_data ≠ []) :
    ∃ s2, update_candle_data sqrtQ s o hi lo c ts = .ok s2
      ∧ (∀ k v, k ≠ "PRICE_EMA20_DIFF_PCT" → lookupKey s.indicators k = some v →
          lookupKey s2.indicators (k ++ "_PREV") = some v)
      ∧ s.indicators.length + 2 ≤ s2.indicators.length := by
  have hie : s.indicators.isEmpty = false := by
    cases hi2 : s.indicators with
    | nil => exact absurd hi2 hne
    | cons a t => rfl
  have hlen1 : 1 ≤ s.candle_data.length := by
    cases hc2 : s.candle_data with
    | nil => exact absurd hc2 hhist
    | cons a t => simp
  have hlen2 : 2 ≤ (CandleBuilder.deque_append s.candle_data
      { open_price := o, high := hi, low := lo, close := c, timestamp := ts }
      max_history).length := by
    rw [deque_append_length]
    simp only [max_history]
    omega
  have hie2 : (CandleBuilder.deque_append s.candle_data
      { open_price := o, high := hi, low := lo, close := c, timestamp := ts }
      max_history).isEmpty = false := by
    cases hd : CandleBuilder.deque_append s.candle_data
        { open_price := o, high := hi, low := lo, close := c, timestamp := ts }
        max_history with
    | nil => rw [hd] at hlen2; simp at hlen2
    | cons a t => rfl
  have heq : update_candle_data sqrtQ s o hi lo c ts = .ok
      { candle_data := CandleBuilder.deque_append s.candle_data
          { open_price := o, high := hi, low := lo, close := c, timestamp := ts }
          max_history,
        indicators := calculate_indicators sqrtQ
          (CandleBuilder.deque_append s.candle_data
            { open_price := o, high := hi, low := lo, close := c, timestamp := ts }
            max_history) s.indicators,
        prev_indicators := s.indicators } := by
    simp [update_candle_data, hval, hie, hie2]
  refine ⟨_, heq, ?_, ?_⟩
  · intro k v hk hkv
    show lookupKey (calculate_indicators sqrtQ _ s.indicators) (k ++ "_PREV") = some v
    unfold calculate_indicators
    rw [lookupKey_append_none _ (lookup_fresh_prev_suffix_none _ _ _)]
    exact lookup_shadow _ _ _ hk hkv
  · show s.indicators.length + 2 ≤ (calculate_indicators sqrtQ _ s.indicators).length
    unfold calculate_indicators
    rw [List.length_append]
    have hf := fresh_entries_length_ge sqrtQ _ hlen2
    have hs := shadow_entries_length s.indicators hnodup
    omega

/-- Witness for C10 at a one-key snapshot: after the update the snapshot
holds `PRICE_PREV` with the prior `PRICE` value. -/
theorem prev_shadow_accumulation_witness :
    ∃ s2, update_candle_data (fun _ => 0)
        { candle_data := [⟨100, 100, 100, 100, 0⟩],
          indicators := [("PRICE", 100)], prev_indicators := [] }
        100 100 100 100 1 = .ok s2
      ∧ lookupKey s2.indicators ("PRICE" ++ "_PREV") = some 100 := by
  obtain ⟨s2, heq, hsh, _⟩ := prev_shadow_accumulation (fun _ => 0)
    { candle_data := [⟨100, 100, 100, 100, 0⟩],
      indicators := [("PRICE", 100)], prev_indicators := [] }
    100 100 100 100 1
    (by norm_num) (by simp) (by simp) (by simp)
  exact ⟨s2, heq, hsh "PRICE" 100 (by decide) (by simp [lookupKey])⟩

/-- Lookup of `MA200` in the fresh part is `none` while fewer than 200
candles are stored. -/
theorem lookup_fresh_MA200_none (sqrtQ : ℚ → ℚ) (hist : List Candle)
    (hn : hist.length < 200) :
    lookupKey (fresh_entries sqrtQ hist) "MA200" = none := by
  apply lookupKey_none_of_keys
  intro kv hkv
  have hmem := keys_fresh_entries sqrtQ hist kv hkv
  simp only [fresh_keys, List.mem_cons, List.not_mem_nil, or_false] at hmem
  by_cases hma : kv.1 = "MA200"
  swap
  · exact hma
  -- the only MA200 entry is guarded by 200 ≤ length
  exfalso
  unfold fresh_entries at hkv
  rcases List.mem_append.mp hkv with hkv | h
  swap
  · rcases hl : lookupKey _ "EMA20" with _ | e20 <;> rw [hl] at h
    · simp at h
    · dsimp only at h
      split_ifs at h <;> simp_all
  rcases List.mem_append.mp hkv with hkv | h
  swap
  · have := keys_bb_entries sqrtQ _ _ kv h
    simp only [bb_entries] at h
    split_ifs at h
    · simp only [List.mem_cons, List.not_mem_nil, or_false] at h
      rcases h with rfl | rfl | rfl | rfl <;> simp_all
    · simp at h
  rcases List.mem_append.mp hkv with hkv | h
  swap
  · simp only [adx_entries] at h
    split_ifs at h
    · cases hr : adx_last hist adx_period with
      | some v => rw [hr] at h; simp_all
      | none => rw [hr] at h; simp at h
    · simp at h
  rcases List.mem_append.mp hkv with hkv | h
  swap
  · simp only [rsi_entries] at h
    split_ifs at h
    · cases hr : rsi_last _ rsi_period with
      | some v => rw [hr] at h; simp_all
      | none => rw [hr] at h; simp at h
    · simp at h
  rcases List.mem_append.mp hkv with hkv | h
  swap
  · simp only [macd_entries] at h
    split_ifs at h
    · simp only [List.mem_cons, List.not_mem_nil, or_false] at h
      rcases h with rfl | rfl | rfl <;> simp_all
    · simp at h
  rcases List.mem_append.mp hkv with hkv | h
  swap
  · unfold ema_entries at h
    rcases List.mem_append.mp h with h | h2
    rotate_left
    · rw [mem_ite_singleton h2] at hma; simp at hma
    rcases List.mem_append.mp h with h | h2
    rotate_left
    · rw [mem_ite_singleton h2] at hma; simp at hma
    rcases List.mem_append.mp h with h | h2
    rotate_left
    · rw [mem_ite_singleton h2] at hma; simp at hma
    rcases List.mem_append.mp h with h | h2
    rotate_left
    · rw [mem_ite_singleton h2] at hma; simp at hma
    rcases List.mem_append.mp h with h | h2
    rotate_left
    · rw [mem_ite_singleton h2] at hma; simp at hma
    rcases List.mem_append.mp h with h | h2
    rotate_left
    · rw [mem_ite_singleton h2] at hma; simp at hma
    rcases List.mem_append.mp h with h | h2
    rotate_left
    · rw [mem_ite_singleton h2] at hma; simp at hma
    rw [mem_ite_singleton h] at hma; simp at hma
  rcases List.mem_append.mp hkv with hkv | h
  swap
  · unfold ma_entries at h
    rcases List.mem_append.mp h with h | h2
    rotate_left
    · -- the MA200 entry requires 200 ≤ length, contradicting hn
      have h200 : (200 : ℕ) ≤ hist.length := by
        by_contra hno
        rw [if_neg hno] at h2
        simp at h2
      omega
    rcases List.mem_append.mp h with h | h2
    rotate_left
    · rw [mem_ite_singleton h2] at hma; simp at hma
    rcases List.mem_append.mp h with h | h2
    rotate_left
    · rw [mem_ite_singleton h2] at hma; simp at hma
    rw [mem_ite_singleton h] at hma; simp at hma
  rcases List.mem_append.mp hkv with hkv | h
  swap
  · split_ifs at h
    · simp only [List.mem_cons, List.not_mem_nil, or_false] at h
      rcases h with rfl | rfl <;> simp_all
    · simp at h
  · rw [List.mem_singleton.mp hkv] at hma
    simp at hma

theorem lookup_calculate_MA200_none (sqrtQ : ℚ → ℚ) (hist : List Candle)
    (prev : List (String × ℚ)) (hn : hist.length < 200) :
    lookupKey (calculate_indicators sqrtQ hist prev) "MA200" = none := by
  unfold calculate_indicators
  rw [lookupKey_append_none _ (lookup_fresh_MA200_none sqrtQ hist hn)]
  exact lookup_shadow_not_prev prev "MA200" (by decide)

/-- One step of feeding a constant candle (close 100) into the engine; a
raising update would leave the state unchanged. -/
def const_update (sqrtQ : ℚ → ℚ) (s : SymbolData) (i : ℕ) : SymbolData :=
  match update_candle_data sqrtQ s 100 100 100 100 (i : ℚ) with
  | .ok s2 => s2
  | .error _ => s

/-- The engine state after `n` constant-candle updates. -/
def const_run (sqrtQ : ℚ → ℚ) (n : ℕ) : SymbolData :=
  (List.range n).foldl (const_update sqrtQ) initial_symbol_data

theorem const_run_succ (sqrtQ : ℚ → ℚ) (n : ℕ) :
    const_run sqrtQ (n + 1) = const_update sqrtQ (const_run sqrtQ n) n := by
  simp [const_run, List.range_succ]

theorem const_update_eq (sqrtQ : ℚ → ℚ) (s : SymbolData) (i : ℕ) :
    const_update sqrtQ s i =
      { candle_data := CandleBuilder.deque_append s.candle_data
          { open_price := 100, high := 100, low := 100, close := 100,
            timestamp := (i : ℚ) } max_history,
        indicators := calculate_indicators sqrtQ
          (CandleBuilder.deque_append s.candle_data
            { open_price := 100, high := 100, low := 100, close := 100,
              timestamp := (i : ℚ) } max_history)
          (if s.indicators.isEmpty then s.prev_indicators else s.indicators),
        prev_indicators :=
          if s.indicators.isEmpty then s.prev_indicators else s.indicators } := by
  have hie2 : (CandleBuilder.deque_append s.candle_data
      { open_price := 100, high := 100, low := 100, close := 100,
        timestamp := (i : ℚ) } max_history).isEmpty = false := by
    have hl := deque_append_length s.candle_data
      { open_price := 100, high := 100, low := 100, close := 100,
        timestamp := (i : ℚ) } max_history
    cases hd : CandleBuilder.deque_append s.candle_data
        { open_price := 100, high := 100, low := 100, close := 100,
          timestamp := (i : ℚ) } max_history with
    | nil =>
      rw [hd] at hl
      simp [max_history] at hl
      omega
    | cons a t => rfl
  simp [const_update, update_candle_data, hie2,
    show (0 : ℚ) < 100 by norm_num]

theorem const_run_length (sqrtQ : ℚ → ℚ) :
    ∀ n, n ≤ max_history → (const_run sqrtQ n).candle_data.length = n := by
  intro n
  induction n with
  | zero => intro _; rfl
  | succ m ih =>
    intro hle
    rw [const_run_succ, const_update_eq]
    simp only [deque_append_length]
    rw [ih (by omega)]
    simp only [max_history] at hle ⊢
    omega

/-- Claim C5 names the slowest enabled indicator (MA200, needing 200
candles) as the readiness threshold; the code uses the MACD requirement
`macd_slow + macd_signal = 35`.  At a 35-candle history `is_symbol_ready`
is already true although the MA200 key is still absent from the snapshot —
contradicting the docstring "has sufficient data for all indicators". -/
theorem ready_at_35_without_MA200 (sqrtQ : ℚ → ℚ) :
    is_symbol_ready (const_run sqrtQ 35) = true
      ∧ (const_run sqrtQ 35).candle_data.length = 35
      ∧ lookupKey (const_run sqrtQ 35).indicators "MA200" = none
      ∧ macd_slow + macd_signal = 35
      ∧ 35 < 200
      ∧ 200 ∈ ma_periods := by
  have hlen := const_run_length sqrtQ 35 (by norm_num [max_history])
  refine ⟨?_, hlen, ?_, rfl, by norm_num, by norm_num [ma_periods]⟩
  · simp [is_symbol_ready, hlen, macd_slow, macd_signal]
  · rw [show const_run sqrtQ 35 = const_update sqrtQ (const_run sqrtQ 34) 34 from
      const_run_succ sqrtQ 34, const_update_eq]
    apply lookup_calculate_MA200_none
    rw [deque_append_length]
    have h34 := const_run_length sqrtQ 34 (by norm_num [max_history])
    rw [h34]
    norm_num [max_history]

end IndicatorEngine

namespace ScalpingEngine

/-! Embedding of the orchestrator-level pieces of
`src/app/engines/scalping_engine.py` (class `ScalpingEngine`): the
per-symbol cooldown gate, the timeframe-change guard, and the reconnection
loop.  `time.time()` is passed in as the `now` argument. -/

/-- `ScalpingEngine._can_generate_signal_for_symbol`
(scalping_engine.py:743-755): allowed iff `now` has reached the recorded
cooldown end, which defaults to 0 (`self.symbol_cooldowns.get(symbol, 0)`). -/
def can_generate_signal_for_symbol (symbol_cooldowns : List (String × ℚ))
    (symbol : String) (now : ℚ) : Bool :=
  decide ((lookupKey symbol_cooldowns symbol).getD 0 ≤ now)

/-- `ScalpingEngine._start_symbol_cooldown` (scalping_engine.py:757-766):
records `now + cooldown_seconds` as that symbol's cooldown end. -/
def start_symbol_cooldown (symbol_cooldowns : List (String × ℚ))
    (symbol : String) (now : ℚ) (cooldown_seconds : ℤ) : List (String × ℚ) :=
  dict_insert symbol_cooldowns symbol (now + cooldown_seconds)

/-- Claim C2: after starting symbol `S`'s cooldown at `t0` for `d` seconds,
`S` cannot fire strictly before `t0 + d` and can fire from `t0 + d` on;
every other symbol's recorded cooldown is untouched; and a symbol with no
recorded cooldown (default 0) is always allowed at any non-negative time. -/
theorem cooldown_gate_spec (cooldowns : List (String × ℚ)) (S : String)
    (t0 : ℚ) (d : ℤ) :
    (∀ t : ℚ, t0 ≤ t → t < t0 + d →
      can_generate_signal_for_symbol
        (start_symbol_cooldown cooldowns S t0 d) S t = false)
    ∧ (∀ t : ℚ, t0 + d ≤ t →
      can_generate_signal_for_symbol
        (start_symbol_cooldown cooldowns S t0 d) S t = true)
    ∧ (∀ S2, S ≠ S2 →
      lookupKey (start_symbol_cooldown cooldowns S t0 d) S2 = lookupKey cooldowns S2)
    ∧ (∀ t : ℚ, lookupKey cooldowns S = none → 0 ≤ t →
      can_generate_signal_for_symbol cooldowns S t = true) := by
  refine ⟨?_, ?_, ?_, ?_⟩
  · intro t _ ht2
    simp only [can_generate_signal_for_symbol, start_symbol_cooldown,
      lookupKey_dict_insert_self, Option.getD_some, decide_eq_false_iff_not, not_le]
    exact ht2
  · intro t ht
    simp only [can_generate_signal_for_symbol, start_symbol_cooldown,
      lookupKey_dict_insert_self, Option.getD_some, decide_eq_true_eq]
    exact ht
  · intro S2 hS2
    exact lookupKey_dict_insert_ne cooldowns S S2 _ hS2
  · intro t hnone ht
    simp only [can_generate_signal_for_symbol, hnone, Option.getD_none,
      decide_eq_true_eq]
    exact ht

/-- Witness for C2 with a 5-second cooldown started at time 10. -/
theorem cooldown_gate_spec_witness :
    can_generate_signal_for_symbol
        (start_symbol_cooldown [] "AAPL" 10 5) "AAPL" 12 = false
      ∧ can_generate_signal_for_symbol
        (start_symbol_cooldown [] "AAPL" 10 5) "AAPL" 15 = true
      ∧ lookupKey (start_symbol_cooldown [] "AAPL" 10 5) "MSFT" = lookupKey [] "MSFT"
      ∧ can_generate_signal_for_symbol [] "MSFT" 0 = true := by
  have h := cooldown_gate_spec [] "AAPL" 10 5
  exact ⟨h.1 12 (by norm_num) (by norm_num), h.2.1 15 (by norm_num),
    h.2.2.1 "MSFT" (by decide), h.2.2.2 0 rfl (by norm_num)⟩

/-- The orchestrator state touched by a timeframe change. -/
structure EngineState where
  is_running : Bool
  timeframe : String
  aggregation_state : List (String × CandleBuilder.SymbolState)
  indicator_state : List (String × IndicatorEngine.SymbolData)

/-- `ScalpingEngine.change_timeframe` (scalping_engine.py:1038-1055): the
running guard at lines 1049-1051 precedes every mutation.
Modelled from the spec: the integrated `IndicatorEngine.change_timeframe`
invoked at line 1054 is repository code missing from src/ — the
core/indicator_engine.py present there has neither the `timeframe`
constructor parameter the engines pass nor a `change_timeframe` method —
so its body is modelled from the spec sentence "Changing timeframe clears
all per-symbol aggregation and indicator state", matching what
`CandleBuilder.change_timeframe` (candle_builder.py:84-107, under src/)
does for the aggregation state, including its timeframe validation. -/
def change_timeframe (s : EngineState) (new_timeframe : String) :
    Except String EngineState :=
  if s.is_running then
    .error ("Cannot change timeframe while engine is running. Stop the engine first.")
  else if (lookupKey CandleBuilder.TIMEFRAMES new_timeframe).isNone then
    .error ("Unsupported timeframe: " ++ new_timeframe)
  else
    .ok { is_running := s.is_running, timeframe := new_timeframe,
          aggregation_state := [], indicator_state := [] }

/-- Claim C6: changing the timeframe while running raises (and, the raise
coming before any mutation, changes nothing); performed while stopped with
a supported timeframe it succeeds, sets the timeframe, and clears all
per-symbol aggregation and indicator state. -/
theorem change_timeframe_spec (s : EngineState) (tf : String) :
    (s.is_running = true → ∃ e, change_timeframe s tf = .error e)
    ∧ (s.is_running = false → (lookupKey CandleBuilder.TIMEFRAMES tf).isSome →
      change_timeframe s tf = .ok
        { is_running := false, timeframe := tf,
          aggregation_state := [], indicator_state := [] }) := by
  constructor
  · intro hr
    apply exists_error_of_not_isOk
    simp [change_timeframe, hr, Except.isOk, Except.toBool]
  · intro hr htf
    have hn : (lookupKey CandleBuilder.TIMEFRAMES tf).isNone = false := by
      cases hl : lookupKey CandleBuilder.TIMEFRAMES tf with
      | none => rw [hl] at htf; simp at htf
      | some v => rfl
    simp [change_timeframe, hr, hn]

/-- Witness for C6: a change to 5m while stopped succeeds and clears state;
the same change while running raises. -/
theorem change_timeframe_spec_witness :
    change_timeframe
        { is_running := false, timeframe := "1m",
          aggregation_state := [("AAPL", CandleBuilder.initial_symbol_state)],
          indicator_state := [("AAPL", IndicatorEngine.initial_symbol_data)] }
        "5m"
      = .ok { is_running := false, timeframe := "5m",
              aggregation_state := [], indicator_state := [] }
    ∧ ∃ e, change_timeframe
        { is_running := true, timeframe := "1m",
          aggregation_state := [], indicator_state := [] } "5m" = .error e := by
  constructor
  · exact (change_timeframe_spec _ "5m").2 rfl (by decide)
  · exact (change_timeframe_spec _ "5m").1 rfl

/-- Reconnection backoff base in seconds (`self.reconnect_interval`,
scalping_engine.py:91). -/
def reconnect_interval : ℕ := 5

/-- Maximum reconnection attempts (`self.max_reconnect_attempts`,
scalping_engine.py:92). -/
def max_reconnect_attempts : ℕ := 10

/-- The wait before attempt `n` (scalping_engine.py:163):
`min(reconnect_interval * 2 ** (attempts - 1), 60)`. -/
def wait_time (n : ℕ) : ℕ := min (reconnect_interval * 2 ^ (n - 1)) 60

/-- The reconnection-related fields of the engine
(scalping_engine.py:90-93). -/
structure ReconnectState where
  reconnect_enabled : Bool
  reconnect_attempts : ℕ
  is_connected : Bool

/-- The `while` loop of `ScalpingEngine._reconnect_to_ibkr`
(scalping_engine.py:159-174): `connect n` is the outcome of the `n`-th
`connect_to_ibkr()` call; the returned list holds the waits slept before
each attempt, in order.  Resubscription after a successful reconnect
touches only the market-data subscriptions, not this state. -/
def reconnect_loop (connect : ℕ → Bool) (s : ReconnectState) :
    List ℕ × ReconnectState :=
  if h : s.reconnect_enabled = true
      ∧ s.reconnect_attempts < max_reconnect_attempts
      ∧ s.is_connected = false then
    let a := s.reconnect_attempts + 1
    let w := wait_time a
    if connect a then
      ([w], { reconnect_enabled := s.reconnect_enabled,
              reconnect_attempts := a, is_connected := true })
    else
      let r := reconnect_loop connect
        { reconnect_enabled := s.reconnect_enabled,
          reconnect_attempts := a, is_connected := false }
      (w :: r.1, r.2)
  else ([], s)
termination_by max_reconnect_attempts - s.reconnect_attempts
decreasing_by
  omega

/-- `ScalpingEngine._reconnect_to_ibkr` (scalping_engine.py:159-178): the
loop, then `reconnect_enabled = False` when still not connected. -/
def reconnect_to_ibkr (connect : ℕ → Bool) (s : ReconnectState) :
    List ℕ × ReconnectState :=
  if (reconnect_loop connect s).2.is_connected = false then
    ((reconnect_loop connect s).1,
      { reconnect_enabled := false,
        reconnect_attempts := (reconnect_loop connect s).2.reconnect_attempts,
        is_connected := (reconnect_loop connect s).2.is_connected })
  else reconnect_loop connect s

theorem wait_time_mono : Monotone wait_time := by
  apply monotone_nat_of_le_succ
  intro n
  unfold wait_time
  apply min_le_min _ le_rfl
  apply Nat.mul_le_mul_left
  exact Nat.pow_le_pow_right (by norm_num) (by omega)

theorem reconnect_loop_closed (connect : ℕ → Bool) :
    ∀ k a, max_reconnect_attempts - a ≤ k →
      ∃ m, (reconnect_loop connect ⟨true, a, false⟩).1
          = (List.range m).map (fun i => wait_time (a + i + 1))
        ∧ m ≤ max_reconnect_attempts - a := by
  intro k
  induction k with
  | zero =>
    intro a ha
    rw [reconnect_loop]
    have hguard : ¬(true = true ∧ a < max_reconnect_attempts ∧ false = false) := by
      simp only [true_and, and_true]
      omega
    rw [dif_neg hguard]
    exact ⟨0, rfl, Nat.zero_le _⟩
  | succ k ih =>
    intro a ha
    by_cases hlt : a < max_reconnect_attempts
    swap
    · rw [reconnect_loop]
      have hguard : ¬(true = true ∧ a < max_reconnect_attempts ∧ false = false) := by
        simp only [true_and, and_true]
        omega
      rw [dif_neg hguard]
      exact ⟨0, rfl, Nat.zero_le _⟩
    rw [reconnect_loop]
    rw [dif_pos ⟨rfl, hlt, rfl⟩]
    cases hc : connect (a + 1)
    · rw [if_neg (by simp [hc])]
      obtain ⟨m, ih1, ih2⟩ := ih (a + 1) (by omega)
      refine ⟨m + 1, ?_, by omega⟩
      simp only [ih1]
      rw [List.range_succ_eq_map]
      simp only [List.map_cons, List.map_map]
      congr 1
      refine List.map_congr_left ?_
      intro i _
      simp only [Function.comp_apply]
      congr 1
      omega
    · rw [if_pos hc]
      refine ⟨1, ?_, by omega⟩
      simp [wait_time, List.range_succ]

/-- Claim C9: starting from a fresh disconnected engine, the wait before
attempt `n` is `min(reconnect_interval * 2^(n-1), 60)` = `min(5 * 2^(n-1),
60)`, so successive backoffs never decrease; at most
`max_reconnect_attempts = 10` attempts are made; and when the attempts end
without a connection, auto-reconnect is disabled. -/
theorem reconnect_backoff_spec (connect : ℕ → Bool) :
    (∀ n, wait_time n = min (5 * 2 ^ (n - 1)) 60)
    ∧ (reconnect_to_ibkr connect ⟨true, 0, false⟩).1
        = (List.range (reconnect_to_ibkr connect ⟨true, 0, false⟩).1.length).map
            (fun i => wait_time (i + 1))
    ∧ (reconnect_to_ibkr connect ⟨true, 0, false⟩).1.length ≤ 10
    ∧ List.Chain' (· ≤ ·) (reconnect_to_ibkr connect ⟨true, 0, false⟩).1
    ∧ ((reconnect_to_ibkr connect ⟨true, 0, false⟩).2.is_connected = false →
      (reconnect_to_ibkr connect ⟨true, 0, false⟩).2.reconnect_enabled = false) := by
  obtain ⟨m, h1, h2⟩ := reconnect_loop_closed connect max_reconnect_attempts 0 (by omega)
  have hsame : (reconnect_to_ibkr connect ⟨true, 0, false⟩).1
      = (reconnect_loop connect ⟨true, 0, false⟩).1 := by
    unfold reconnect_to_ibkr
    split_ifs <;> rfl
  have hlen : (reconnect_to_ibkr connect ⟨true, 0, false⟩).1.length = m := by
    rw [hsame, h1]
    simp
  have hlist : (reconnect_to_ibkr connect ⟨true, 0, false⟩).1
      = (List.range (reconnect_to_ibkr connect ⟨true, 0, false⟩).1.length).map
          (fun i => wait_time (i + 1)) := by
    rw [hlen, hsame, h1]
    apply List.map_congr_left
    intro i _
    congr 1
    omega
  refine ⟨fun n => rfl, hlist, ?_, ?_, ?_⟩
  · rw [hlen]
    simpa [max_reconnect_attempts] using h2
  · rw [hlist]
    apply List.Pairwise.chain'
    exact List.Pairwise.map _
      (fun a b hab => wait_time_mono (show a + 1 ≤ b + 1 by omega))
      (List.pairwise_lt_range _)
  · intro hnc
    unfold reconnect_to_ibkr at hnc ⊢
    by_cases hcc :
        (reconnect_loop connect ⟨true, 0, false⟩).2.is_connected = false
    · rw [if_pos hcc]
    · rw [if_neg hcc] at hnc
      exact absurd hnc hcc

/-- Witness for C9 with a connection that never succeeds: all 10 attempts
are made with the capped exponential waits and reconnection is disabled. -/
theorem reconnect_loop_false_step (a b : ℕ) (hb : b = a + 1)
    (h : a < max_reconnect_attempts) :
    reconnect_loop (fun _ => false) ⟨true, a, false⟩
      = (wait_time b :: (reconnect_loop (fun _ => false) ⟨true, b, false⟩).1,
        (reconnect_loop (fun _ => false) ⟨true, b, false⟩).2) := by
  subst hb
  rw [reconnect_loop, dif_pos ⟨rfl, h, rfl⟩]
  rfl

theorem reconnect_loop_false_end :
    reconnect_loop (fun _ => false) ⟨true, 10, false⟩
      = ([], ⟨true, 10, false⟩) := by
  rw [reconnect_loop,
    dif_neg (by simp [max_reconnect_attempts])]

theorem reconnect_backoff_spec_witness :
    (reconnect_to_ibkr (fun _ => false) ⟨true, 0, false⟩).1
        = [5, 10, 20, 40, 60, 60, 60, 60, 60, 60]
      ∧ (reconnect_to_ibkr (fun _ => false) ⟨true, 0, false⟩).2.reconnect_enabled
        = false := by
  have hloop : reconnect_loop (fun _ => false) ⟨true, 0, false⟩
      = ([5, 10, 20, 40, 60, 60, 60, 60, 60, 60], ⟨true, 10, false⟩) := by
    rw [reconnect_loop_false_step 0 1 rfl (by decide),
      reconnect_loop_false_step 1 2 rfl (by decide),
      reconnect_loop_false_step 2 3 rfl (by decide),
      reconnect_loop_false_step 3 4 rfl (by decide),
      reconnect_loop_false_step 4 5 rfl (by decide),
      reconnect_loop_false_step 5 6 rfl (by decide),
      reconnect_loop_false_step 6 7 rfl (by decide),
      reconnect_loop_false_step 7 8 rfl (by decide),
      reconnect_loop_false_step 8 9 rfl (by decide),
      reconnect_loop_false_step 9 10 rfl (by decide),
      reconnect_loop_false_end]
    norm_num [wait_time, reconnect_interval]
  have hto : reconnect_to_ibkr (fun _ => false) ⟨true, 0, false⟩
      = ([5, 10, 20, 40, 60, 60, 60, 60, 60, 60], ⟨false, 10, false⟩) := by
    rw [reconnect_to_ibkr, hloop]
    simp
  constructor
  · rw [hto]
  · exact (reconnect_backoff_spec (fun _ => false)).2.2.2.2 (by rw [hto])

end ScalpingEngine

end SignalGen
